import Mathlib

/-!
Verification of the 757built.com document-to-graph pipeline against its
natural-language specification.  Python sources are shallowly embedded:
dictionaries become structures or association lists, floats become rationals
(reals where trigonometry is involved), raised-and-caught exceptions become
`Except`/`Option` values, and external collaborators (Redis, IPFS, sklearn's
BallTree, `random.sample`, the filesystem) become explicit parameters.
-/

namespace S2P

/- Core marks rational arithmetic `@[irreducible]`, which blocks `decide`
on concrete states; the kernel itself never consults reducibility hints, so
re-opening them for elaboration is sound. -/
set_option allowUnsafeReducibility true
attribute [local semireducible] Rat.sub Rat.add Rat.mul Rat.div Rat.inv Rat.neg

instance {ε α : Type} [DecidableEq ε] [DecidableEq α] :
    DecidableEq (Except ε α) := fun a b =>
  match a, b with
  | Except.error e1, Except.error e2 =>
    if h : e1 = e2 then Decidable.isTrue (by rw [h])
    else Decidable.isFalse (by intro hc; injection hc; contradiction)
  | Except.ok v1, Except.ok v2 =>
    if h : v1 = v2 then Decidable.isTrue (by rw [h])
    else Decidable.isFalse (by intro hc; injection hc; contradiction)
  | Except.error _, Except.ok _ =>
    Decidable.isFalse (fun hc => Except.noConfusion hc)
  | Except.ok _, Except.error _ =>
    Decidable.isFalse (fun hc => Except.noConfusion hc)

/-! ## graph_db/schema.py -/

/-- `NodeType` enum from `graph_db/schema.py`. -/
inductive NodeType
  | RESEARCH_PAPER | PATENT | PROJECT | BUILDING | DATASET | PERSON
  | FUNDING | DOCUMENT | LOCALITY | REGION
  | TELEMETRY_STREAM | TELEMETRY_READING | METRIC | SENSOR
  deriving DecidableEq, Repr

/-- `EdgeType` enum from `graph_db/schema.py`.  Note: there is no `NEARBY`
member; the closest is `LOCATED_NEAR`. -/
inductive EdgeType
  | DERIVES_FROM | IMPLEMENTS | INFLUENCED | SUPERSEDES
  | AUTHORED_BY | FUNDED_BY
  | LOCATED_IN | SERVES_REGION
  | MEASURES | OBSERVES | PROVIDED_BY | CONTAINS
  | WORKED_WITH | CITED_BY | CONTRACTED_BY | MERGED_WITH | ACQUIRED
  | PARTNERED_WITH | INVESTED_IN | SUPPLIES_TO | PROVIDES_SERVICE_TO
  | HOSTS_AT | LOCATED_NEAR | ORIGINATED_FROM
  deriving DecidableEq, Repr

/-- The `.value` string of each `EdgeType` member. -/
def EdgeType.value : EdgeType → String
  | .DERIVES_FROM => "derives_from"
  | .IMPLEMENTS => "implements"
  | .INFLUENCED => "influenced"
  | .SUPERSEDES => "supersedes"
  | .AUTHORED_BY => "authored_by"
  | .FUNDED_BY => "funded_by"
  | .LOCATED_IN => "located_in"
  | .SERVES_REGION => "serves_region"
  | .MEASURES => "measures"
  | .OBSERVES => "observes"
  | .PROVIDED_BY => "provided_by"
  | .CONTAINS => "contains"
  | .WORKED_WITH => "worked_with"
  | .CITED_BY => "cited_by"
  | .CONTRACTED_BY => "contracted_by"
  | .MERGED_WITH => "merged_with"
  | .ACQUIRED => "acquired"
  | .PARTNERED_WITH => "partnered_with"
  | .INVESTED_IN => "invested_in"
  | .SUPPLIES_TO => "supplies_to"
  | .PROVIDES_SERVICE_TO => "provides_service_to"
  | .HOSTS_AT => "hosts_at"
  | .LOCATED_NEAR => "located_near"
  | .ORIGINATED_FROM => "originated_from"

/-- The member table of the `EdgeType` enum, keyed by member name, in the
order the members are declared in `graph_db/schema.py`. -/
def edgeTypeMembers : List (String × EdgeType) :=
  [("DERIVES_FROM", .DERIVES_FROM), ("IMPLEMENTS", .IMPLEMENTS),
   ("INFLUENCED", .INFLUENCED), ("SUPERSEDES", .SUPERSEDES),
   ("AUTHORED_BY", .AUTHORED_BY), ("FUNDED_BY", .FUNDED_BY),
   ("LOCATED_IN", .LOCATED_IN), ("SERVES_REGION", .SERVES_REGION),
   ("MEASURES", .MEASURES), ("OBSERVES", .OBSERVES),
   ("PROVIDED_BY", .PROVIDED_BY), ("CONTAINS", .CONTAINS),
   ("WORKED_WITH", .WORKED_WITH), ("CITED_BY", .CITED_BY),
   ("CONTRACTED_BY", .CONTRACTED_BY), ("MERGED_WITH", .MERGED_WITH),
   ("ACQUIRED", .ACQUIRED), ("PARTNERED_WITH", .PARTNERED_WITH),
   ("INVESTED_IN", .INVESTED_IN), ("SUPPLIES_TO", .SUPPLIES_TO),
   ("PROVIDES_SERVICE_TO", .PROVIDES_SERVICE_TO), ("HOSTS_AT", .HOSTS_AT),
   ("LOCATED_NEAR", .LOCATED_NEAR), ("ORIGINATED_FROM", .ORIGINATED_FROM)]

/-- Python's `EdgeType[name]` member lookup (`None` models the `KeyError`). -/
def edgeTypeOfName (s : String) : Option EdgeType :=
  edgeTypeMembers.lookup s

/-- Python's `getattr(EdgeType, name)` attribute access; a missing member is
an `AttributeError`, modelled as the error case. -/
def edgeTypeAttr (s : String) : Except String EdgeType :=
  match edgeTypeMembers.lookup s with
  | some e => Except.ok e
  | none => Except.error ("AttributeError: EdgeType has no attribute " ++ s)

/-! ## graph_db/edge_mapping.py

The YAML mapping file is external state: `none` models a file that is absent
or unreadable (every exception inside `_load_mapping` is caught and yields
the empty mapping), `some m` models a successfully parsed YAML dictionary as
an association list in insertion order. -/

/-- Python `str.lower()` (character-wise lowercasing). -/
def pyLower (s : String) : String :=
  String.mk (s.data.map Char.toLower)

/-- Python `str.strip()`: remove leading and trailing whitespace. -/
def pyStrip (s : String) : String :=
  String.mk (((s.data.dropWhile Char.isWhitespace).reverse.dropWhile
    Char.isWhitespace).reverse)

/-- Python `dict.get` over a dict built in insertion order where a later
duplicate key overrides an earlier one: the last binding wins. -/
def pyDictGet (l : List (String × String)) (k : String) : Option String :=
  l.reverse.lookup k

/-- `_load_mapping` from `graph_db/edge_mapping.py`: on any exception
(missing or unreadable file) it returns the empty mapping; otherwise it
normalises every key with `lower().strip()`. -/
def loadMapping (file : Option (List (String × String))) : List (String × String) :=
  match file with
  | none => []
  | some m => m.map (fun kv => (pyStrip (pyLower kv.1), kv.2))

/-- `canonical_edge` from `graph_db/edge_mapping.py`.  Falsy text returns
`none`; otherwise the lowercased, stripped text is looked up in the loaded
mapping; a falsy or missing entry returns `none`; an entry naming an invalid
enum member raises `KeyError`, which the source catches and turns into
`none`. -/
def canonical_edge (file : Option (List (String × String))) (text : String) :
    Option EdgeType :=
  if text = "" then none
  else
    let t := pyStrip (pyLower text)
    match pyDictGet (loadMapping file) t with
    | none => none
    | some enumName =>
      if enumName = "" then none
      else
        match edgeTypeOfName enumName with
        | some e => some e
        | none => none

/-! ## Agent/utils/chunking.py -/

/-- Helper for `pySplit`: walk the characters, accumulating the current
word in reverse. -/
def pySplitAux : List Char → List Char → List String
  | [], acc => if acc = [] then [] else [String.mk acc.reverse]
  | c :: rest, acc =>
    if c.isWhitespace then
      (if acc = [] then [] else [String.mk acc.reverse]) ++ pySplitAux rest []
    else pySplitAux rest (c :: acc)

/-- Python `str.split()` with no argument: split on runs of whitespace and
drop empty pieces. -/
def pySplit (text : String) : List String :=
  pySplitAux text.data []

/-- The `while` loop of `chunk_document`.  Each iteration appends exactly one
chunk and the loop stops once `max_chunks` chunks exist, so the remaining
chunk budget is the decreasing fuel.  The source's locals
`end = min(start + chunk_size, len(words))` and `chunk` are inlined. -/
def chunkLoop (words : List String) (chunkSize overlap : Nat) :
    Nat → Nat → List String
  | 0, _ => []
  | fuel + 1, start =>
    if start < words.length then
      if min (start + chunkSize) words.length = words.length then
        [String.intercalate " "
          ((words.drop start).take (min (start + chunkSize) words.length - start))]
      else
        String.intercalate " "
            ((words.drop start).take (min (start + chunkSize) words.length - start)) ::
          chunkLoop words chunkSize overlap fuel
            (min (start + chunkSize) words.length - overlap)
    else []

/-- `chunk_document` from `Agent/utils/chunking.py`. -/
def chunk_document (text : String) (chunkSize overlap maxChunks : Nat) :
    List String :=
  let words := pySplit text
  if words.length ≤ chunkSize then [text]
  else chunkLoop words chunkSize overlap maxChunks 0

/-! ## Agent/telemetry_ingestors/base_ingestor.py

External collaborators (the `re` module's PII patterns, IPFS `add`, the local
filesystem write, `urlparse`) are supplied as functions in `TelemetryEnv`;
the graph client is abstracted as the ordered sequence of calls issued to it. -/

/-- Python `str.upper()`. -/
def pyUpper (s : String) : String :=
  String.mk (s.data.map Char.toUpper)

/-- `HAMPTON_ROADS_BOUNDS` from `base_ingestor.py`: `min_lat` 36.6,
`max_lat` 37.3, `min_lon` -77.0, `max_lon` -75.9 (written through `mkRat`
so that concrete comparisons reduce in the kernel). -/
def HR_MIN_LAT : ℚ := mkRat 366 10
def HR_MAX_LAT : ℚ := mkRat 373 10
def HR_MIN_LON : ℚ := mkRat (-770) 10
def HR_MAX_LON : ℚ := mkRat (-759) 10

/-- `OPEN_DATA_LICENSES` from `BaseTelemetryIngestor._validate_license`. -/
def OPEN_DATA_LICENSES : List String :=
  ["CC0-1.0", "CC-BY-4.0", "ODC-BY-1.0", "ODbL-1.0", "PDDL-1.0", "MIT",
   "Apache-2.0"]

/-- `_validate_license`: when `license_id` is not in `OPEN_DATA_LICENSES` the
source only logs a warning ("For now, we'll allow it") and still returns the
license unchanged — although its own docstring documents
`Raises ValueError: If license is not approved for open data`. -/
def validate_license (license_id : String) : String :=
  license_id

/-- `_is_in_hampton_roads`. -/
def is_in_hampton_roads (lat lon : ℚ) : Bool :=
  decide (HR_MIN_LAT ≤ lat ∧ lat ≤ HR_MAX_LAT ∧
    HR_MIN_LON ≤ lon ∧ lon ≤ HR_MAX_LON)

/-- The `reading_data` dictionary built by `process_reading`. -/
structure ReadingData where
  streamId : String
  value : ℚ
  timestamp : String
  lat : ℚ
  lon : ℚ
  metric : String
  unit : String
  license : String
  locality : Option String
  sourceUrl : Option String
  extra : List (String × String)
  dataLocation : Option String
  deriving DecidableEq, Repr

/-- One call issued to the graph client by `process_reading`, in order. -/
inductive GraphCall
  | getOrCreateStream (id metric unit : String)
  | createReading (id : String) (value : ℚ) (unit : String) (lat lon : ℚ)
      (timestamp : String) (sourceUrl : Option String) (license : String)
      (dataLocation : String)
  | edgeStreamContainsReading (timestamp : String)
  | getOrCreateLocality (name : String)
  | edgeReadingLocatedInLocality (timestamp : String)
  deriving DecidableEq, Repr

/-- External collaborators of the ingestor. -/
structure TelemetryEnv where
  pii : List (String × String) → Bool
  ipfsAdd : ReadingData → String
  localWrite : ReadingData → String
  urlValid : String → Bool

/-- Ingestor state set up by `BaseTelemetryIngestor.__init__` (the
`data_license` field has already been passed through `_validate_license`). -/
structure Ingestor where
  graphClient : Bool
  storageClient : Bool
  metricType : String
  unit : String
  dataLicense : String
  storeInIpfs : Bool

/-- `_store_data`: IPFS when configured and available, else the local
time-partitioned store. -/
def store_data (env : TelemetryEnv) (ing : Ingestor) (d : ReadingData) : String :=
  if ing.storeInIpfs && ing.storageClient then env.ipfsAdd d else env.localWrite d

/-- The `if locality:` block of `process_reading` (a `None` or empty
locality is falsy and adds nothing). -/
def reading_with_locality (rd : ReadingData) (locality : Option String) :
    ReadingData :=
  match locality with
  | some l => if l ≠ "" then { rd with locality := some (pyUpper l) } else rd
  | none => rd

/-- The `if source_url:` block of `process_reading`: an invalid URL (per
`urlparse`) is only warned about and not recorded. -/
def reading_with_source_url (env : TelemetryEnv) (rd : ReadingData)
    (sourceUrl : Option String) : ReadingData :=
  match sourceUrl with
  | some u =>
    if u ≠ "" then
      if env.urlValid u then { rd with sourceUrl := some u } else rd
    else rd
  | none => rd

/-- The `if additional_metadata:` block of `process_reading`: metadata with
detected PII is dropped (warned about), otherwise merged in. -/
def reading_with_metadata (env : TelemetryEnv) (rd : ReadingData)
    (md : Option (List (String × String))) : ReadingData :=
  match md with
  | some m =>
    if m ≠ [] then (if env.pii m then rd else { rd with extra := m })
    else rd
  | none => rd

/-- The graph-client calls issued at the end of `process_reading` when a
graph client is configured. -/
def reading_graph_calls (env : TelemetryEnv) (ing : Ingestor)
    (streamId : String) (value : ℚ) (timestamp : String) (lat lon : ℚ)
    (locality : Option String) (sourceUrl : Option String)
    (rd3 : ReadingData) : List GraphCall :=
  if ing.graphClient then
    [GraphCall.getOrCreateStream streamId ing.metricType ing.unit,
     GraphCall.createReading (streamId ++ "_" ++ timestamp) value ing.unit
       lat lon timestamp sourceUrl ing.dataLicense (store_data env ing rd3),
     GraphCall.edgeStreamContainsReading timestamp] ++
    (match locality with
     | some l =>
       if l ≠ "" then
         [GraphCall.getOrCreateLocality (pyUpper l),
          GraphCall.edgeReadingLocatedInLocality timestamp]
       else []
     | none => [])
  else []

/-- `process_reading` from `base_ingestor.py`.  Returns `none` when the
coordinates fail the Hampton Roads bounding-box check (the reading is
dropped before any storage or graph call); otherwise returns the built
`reading_data` and the sequence of graph-client calls. -/
def process_reading (env : TelemetryEnv) (ing : Ingestor) (streamId : String)
    (value : ℚ) (timestamp : String) (lat lon : ℚ) (locality : Option String)
    (sourceUrl : Option String) (additionalMetadata : Option (List (String × String))) :
    Option (ReadingData × List GraphCall) :=
  if is_in_hampton_roads lat lon then
    let rd0 : ReadingData :=
      { streamId := streamId, value := value, timestamp := timestamp,
        lat := lat, lon := lon, metric := ing.metricType, unit := ing.unit,
        license := ing.dataLicense, locality := none, sourceUrl := none,
        extra := [], dataLocation := none }
    let rd3 := reading_with_metadata env
      (reading_with_source_url env (reading_with_locality rd0 locality) sourceUrl)
      additionalMetadata
    some ({ rd3 with dataLocation := some (store_data env ing rd3) },
      reading_graph_calls env ing streamId value timestamp lat lon locality
        sourceUrl rd3)
  else none

/-! ## Agent/graph_writer_service.py

The Redis stream, JSON decoding and the graph helpers
(`add_document_to_graph` + `save_graph`) are external to this file's claims:
a message carries `none` where `fields['path']` would raise `KeyError` or
`json.loads(fields['data'])` would raise, and the merge step is a parameter
that may raise (return an error). -/

/-- A `graph_updates` stream message as consumed by `handle_message`. -/
structure StreamMsg (α : Type) where
  id : String
  path : Option String
  data : Option α

/-- The `try` body of `handle_message`: raises (returns an error) when the
`path` field is missing, when the `data` field fails to deserialise, or when
the merge (`add_document_to_graph` / `save_graph`) raises. -/
def handle_message_body {α G : Type} (merge : String → α → G → Except String G)
    (msg : StreamMsg α) (g : G) : Except String G :=
  match msg.path with
  | none => Except.error "KeyError: path"
  | some p =>
    match msg.data with
    | none => Except.error "json.loads raised"
    | some d => merge p d g

/-- `handle_message`: the body runs under `try/except Exception`, so every
exception is logged and swallowed; on failure the graph is unchanged and no
error propagates to the caller. -/
def handle_message {α G : Type} (merge : String → α → G → Except String G)
    (msg : StreamMsg α) (g : G) : G :=
  match handle_message_body merge msg g with
  | Except.ok g2 => g2
  | Except.error _ => g

/-- The inner loop of `main` over one batch: for every message it calls
`handle_message(msg_id, fields)` and then — unconditionally —
`r.xack(STREAM_NAME, GROUP_NAME, msg_id)`.  Returns the final graph and the
list of acknowledged message ids. -/
def processEntries {α G : Type} (merge : String → α → G → Except String G)
    (msgs : List (StreamMsg α)) (g : G) : G × List String :=
  msgs.foldl (fun st m => (handle_message merge m st.1, st.2 ++ [m.id])) (g, [])

/-! ## Theorems about edge canonicalisation (claim C10) -/

/-- C10: `canonical_edge` is total and never raises: every input yields a
member of the `EdgeType` enum or `none` — `none` for empty input, for text
absent from the mapping, and for a mapping entry naming an invalid enum
member; when the YAML mapping file is absent or unreadable, the result is
`none` for every input (so every free-text relation is dropped). -/
theorem canonical_edge_total_cases :
    (∀ t, canonical_edge none t = none) ∧
    (∀ f, canonical_edge f "" = none) ∧
    (∀ f t, pyDictGet (loadMapping f) (pyStrip (pyLower t)) = none →
      canonical_edge f t = none) ∧
    (∀ f t n, pyDictGet (loadMapping f) (pyStrip (pyLower t)) = some n →
      edgeTypeOfName n = none → canonical_edge f t = none) ∧
    (∀ f t e, canonical_edge f t = some e →
      ∃ n, pyDictGet (loadMapping f) (pyStrip (pyLower t)) = some n ∧
        edgeTypeOfName n = some e) := by
  refine ⟨?_, ?_, ?_, ?_, ?_⟩
  · intro t
    simp [canonical_edge, loadMapping, pyDictGet]
  · intro f
    simp [canonical_edge]
  · intro f t h
    by_cases ht : t = ""
    · simp [canonical_edge, ht]
    · simp [canonical_edge, ht, h]
  · intro f t n h hn
    by_cases ht : t = ""
    · simp [canonical_edge, ht]
    · by_cases hn0 : n = ""
      · simp [canonical_edge, ht, h, hn0]
      · simp [canonical_edge, ht, h, hn0, hn]
  · intro f t e h
    by_cases ht : t = ""
    · simp [canonical_edge, ht] at h
    · rcases hd : pyDictGet (loadMapping f) (pyStrip (pyLower t)) with _ | n
      · simp [canonical_edge, ht, hd] at h
      · by_cases hn0 : n = ""
        · simp [canonical_edge, ht, hd, hn0] at h
        · rcases he : edgeTypeOfName n with _ | e2
          · simp [canonical_edge, ht, hd, hn0, he] at h
          · refine ⟨n, rfl, ?_⟩
            simp [canonical_edge, ht, hd, hn0, he] at h
            rw [he, h]

/-- Witness for C10: concrete instances of the quantified cases — a missing
mapping file, and a mapping entry naming the invalid member
`INVALID_EDGE_TYPE` (the case exercised by the repository's own tests). -/
theorem canonical_edge_total_cases_witness :
    canonical_edge none "worked with" = none ∧
    canonical_edge (some [("invalid relation", "INVALID_EDGE_TYPE")])
      "Invalid Relation" = none := by
  have h := canonical_edge_total_cases
  exact ⟨h.1 "worked with",
    h.2.2.2.1 (some [("invalid relation", "INVALID_EDGE_TYPE")])
      "Invalid Relation" "INVALID_EDGE_TYPE" (by decide) (by decide)⟩

/-! ## Theorems about chunking (claim C7) -/

theorem take_min_eq {α : Type} (l : List α) (n : Nat) :
    l.take (min n l.length) = l.take n := by
  rcases le_total n l.length with h | h
  · rw [Nat.min_eq_left h]
  · rw [Nat.min_eq_right h, List.take_length, List.take_of_length_le h]

theorem chunkLoop_length_le (w : List String) (c o : Nat) :
    ∀ fuel s, (chunkLoop w c o fuel s).length ≤ fuel := by
  intro fuel
  induction fuel with
  | zero => intro s; simp [chunkLoop]
  | succ n ih =>
    intro s
    simp only [chunkLoop]
    split
    · split
      · simp
      · simpa using Nat.succ_le_succ (ih _)
    · simp

theorem chunkLoop_getElem (w : List String) (c o : Nat) (ho : o < c) :
    ∀ (fuel s i : Nat) (h : i < (chunkLoop w c o fuel s).length),
      (chunkLoop w c o fuel s)[i] =
        String.intercalate " " ((w.drop (s + i * (c - o))).take c) := by
  intro fuel
  induction fuel with
  | zero => intro s i h; simp [chunkLoop] at h
  | succ n ih =>
    intro s i h
    by_cases hs : s < w.length
    · have harg : min (s + c) w.length - s = min c ((w.drop s).length) := by
        simp only [List.length_drop]; omega
      by_cases he : min (s + c) w.length = w.length
      · have hlen : (chunkLoop w c o (n + 1) s).length = 1 := by
          simp [chunkLoop, hs, he]
        have hi : i = 0 := by omega
        subst hi
        simp only [chunkLoop, if_pos hs, if_pos he, List.getElem_singleton,
          Nat.zero_mul, Nat.add_zero]
        rw [harg, take_min_eq]
      · cases i with
        | zero =>
          simp only [chunkLoop, if_pos hs, if_neg he, List.getElem_cons_zero,
            Nat.zero_mul, Nat.add_zero]
          rw [harg, take_min_eq]
        | succ i =>
          have h' : i < (chunkLoop w c o n (min (s + c) w.length - o)).length := by
            have h2 := h
            simp only [chunkLoop, if_pos hs, if_neg he, List.length_cons] at h2
            omega
          have hrec := ih (min (s + c) w.length - o) i h'
          simp only [chunkLoop, if_pos hs, if_neg he, List.getElem_cons_succ]
          rw [hrec]
          have hee : min (s + c) w.length = s + c := by omega
          have hidx : min (s + c) w.length - o + i * (c - o) =
              s + (i + 1) * (c - o) := by
            rw [hee, Nat.succ_mul]
            have hA : i * (c - o) = i * (c - o) := rfl
            omega
          rw [hidx]
    · simp [chunkLoop, hs] at h

/-- C7: for a text of at most `chunk_size` whitespace-separated words,
`chunk_document` returns exactly `[text]`; for a longer text (with
`overlap < chunk_size`) at most `max_chunks` chunks are returned, and chunk
`i` consists of the up-to-`chunk_size` words starting at word index
`i * (chunk_size - overlap)` — so the first chunk has at most `chunk_size`
words and each successive chunk starts exactly `chunk_size - overlap` words
after the previous chunk's start. -/
theorem chunk_document_correct (text : String) (c o m : Nat) (ho : o < c) :
    ((pySplit text).length ≤ c → chunk_document text c o m = [text]) ∧
    (c < (pySplit text).length →
      (chunk_document text c o m).length ≤ m ∧
      ∀ (i : Nat) (h : i < (chunk_document text c o m).length),
        (chunk_document text c o m)[i] =
          String.intercalate " " (((pySplit text).drop (i * (c - o))).take c) ∧
        (((pySplit text).drop (i * (c - o))).take c).length ≤ c) := by
  constructor
  · intro h
    simp [chunk_document, h]
  · intro h
    have hnot : ¬ (pySplit text).length ≤ c := by omega
    constructor
    · simp only [chunk_document, if_neg hnot]
      exact chunkLoop_length_le _ _ _ m 0
    · intro i hi
      constructor
      · have hi' : i < (chunkLoop (pySplit text) c o m 0).length := by
          simpa [chunk_document, hnot] using hi
        have hrec := chunkLoop_getElem (pySplit text) c o ho m 0 i hi'
        simpa [chunk_document, hnot] using hrec
      · simp only [List.length_take]
        omega

/-- Witness for C7: a two-word text within `chunk_size` comes back whole, and
a five-word text with `chunk_size = 2`, `overlap = 1` yields at most 10
chunks whose second chunk starts one word after the first. -/
theorem chunk_document_correct_witness :
    chunk_document "a b" 5 1 3 = ["a b"] ∧
    (chunk_document "a b c d e" 2 1 10).length ≤ 10 ∧
    (((pySplit "a b c d e").drop (1 * (2 - 1))).take 2).length ≤ 2 := by
  have h1 := chunk_document_correct "a b" 5 1 3 (by decide)
  have h2 := chunk_document_correct "a b c d e" 2 1 10 (by decide)
  exact ⟨h1.1 (by decide), (h2.2 (by decide)).1,
    ((h2.2 (by decide)).2 1 (by decide)).2⟩

/-! ## Theorems about telemetry spatial gating (claim C5) -/

theorem reading_with_locality_lat (rd : ReadingData) (l : Option String) :
    (reading_with_locality rd l).lat = rd.lat ∧
    (reading_with_locality rd l).lon = rd.lon ∧
    (reading_with_locality rd l).license = rd.license := by
  rcases l with _ | l
  · simp [reading_with_locality]
  · simp only [reading_with_locality]
    split_ifs <;> simp

theorem reading_with_source_url_lat (env : TelemetryEnv) (rd : ReadingData)
    (u : Option String) :
    (reading_with_source_url env rd u).lat = rd.lat ∧
    (reading_with_source_url env rd u).lon = rd.lon ∧
    (reading_with_source_url env rd u).license = rd.license := by
  rcases u with _ | u
  · simp [reading_with_source_url]
  · simp only [reading_with_source_url]
    split_ifs <;> simp

theorem reading_with_metadata_lat (env : TelemetryEnv) (rd : ReadingData)
    (md : Option (List (String × String))) :
    (reading_with_metadata env rd md).lat = rd.lat ∧
    (reading_with_metadata env rd md).lon = rd.lon ∧
    (reading_with_metadata env rd md).license = rd.license := by
  rcases md with _ | md
  · simp [reading_with_metadata]
  · simp only [reading_with_metadata]
    split_ifs <;> simp

/-- C5: every reading that `process_reading` stores and materialises has
coordinates inside the configured bounding box — the returned
`reading_data` carries exactly the input coordinates, every `createReading`
graph call carries them too, and a reading whose coordinates fail the
bounding-box check is rejected (`None`: not stored, no graph call). -/
theorem process_reading_in_bounds :
    (∀ env ing sid v ts lat lon loc url md out,
      process_reading env ing sid v ts lat lon loc url md = some out →
        (HR_MIN_LAT ≤ lat ∧ lat ≤ HR_MAX_LAT ∧
         HR_MIN_LON ≤ lon ∧ lon ≤ HR_MAX_LON) ∧
        out.1.lat = lat ∧ out.1.lon = lon ∧
        (∀ id v2 u la lo ts2 su li dl,
          GraphCall.createReading id v2 u la lo ts2 su li dl ∈ out.2 →
            la = lat ∧ lo = lon)) ∧
    (∀ env ing sid v ts lat lon loc url md,
      is_in_hampton_roads lat lon = false →
      process_reading env ing sid v ts lat lon loc url md = none) := by
  constructor
  · intro env ing sid v ts lat lon loc url md out h
    by_cases hb : is_in_hampton_roads lat lon
    · have hbounds : HR_MIN_LAT ≤ lat ∧ lat ≤ HR_MAX_LAT ∧
          HR_MIN_LON ≤ lon ∧ lon ≤ HR_MAX_LON := by
        have := of_decide_eq_true hb
        exact this
      simp only [process_reading, if_pos hb, Option.some.injEq] at h
      subst h
      refine ⟨hbounds, ?_, ?_, ?_⟩
      · simp [(reading_with_metadata_lat _ _ _).1,
          (reading_with_source_url_lat _ _ _).1,
          (reading_with_locality_lat _ _).1]
      · simp [(reading_with_metadata_lat _ _ _).2.1,
          (reading_with_source_url_lat _ _ _).2.1,
          (reading_with_locality_lat _ _).2.1]
      · intro id v2 u la lo ts2 su li dl hmem
        simp only [reading_graph_calls] at hmem
        by_cases hg : ing.graphClient
        · simp only [if_pos hg, List.mem_append, List.mem_cons,
            List.mem_singleton] at hmem
          rcases hmem with (h1 | h1 | h1) | h1
          · exact absurd h1 (by simp)
          · simp only [GraphCall.createReading.injEq] at h1
            exact ⟨h1.2.2.2.1, h1.2.2.2.2.1⟩
          · exact absurd h1 (by simp)
          · rcases loc with _ | l
            · simp at h1
            · by_cases hl : l ≠ ""
              · simp [hl] at h1
              · simp [hl] at h1
        · simp [hg] at hmem
    · simp [process_reading, hb] at h
  · intro env ing sid v ts lat lon loc url md hb
    simp [process_reading, hb]

/-- A concrete telemetry environment for witnesses: no PII detected, IPFS
returns hash `QmX`, local writes land at `p.json`, all URLs parse. -/
def telemetryEnvW : TelemetryEnv :=
  { pii := fun _ => false, ipfsAdd := fun _ => "QmX",
    localWrite := fun _ => "p.json", urlValid := fun _ => true }

/-- A concrete ingestor with an approved license. -/
def ingestorW : Ingestor :=
  { graphClient := true, storageClient := true, metricType := "traffic_count",
    unit := "vehicles", dataLicense := validate_license "CC0-1.0",
    storeInIpfs := true }

/-- Witness for C5: a reading at (36.9, -76.2) is inside the box and is
processed, and a reading at (40.0, -74.0) is rejected. -/
theorem process_reading_in_bounds_witness :
    (HR_MIN_LAT ≤ mkRat 369 10 ∧ mkRat 369 10 ≤ HR_MAX_LAT ∧
     HR_MIN_LON ≤ mkRat (-762) 10 ∧ mkRat (-762) 10 ≤ HR_MAX_LON) ∧
    process_reading telemetryEnvW ingestorW "s1" 42 "t0" (mkRat 400 10)
      (mkRat (-740) 10) none none none = none := by
  have h1 := process_reading_in_bounds.1 telemetryEnvW ingestorW "s1" 42 "t0"
    (mkRat 369 10) (mkRat (-762) 10) (some "Norfolk") none none
    ({ streamId := "s1", value := 42, timestamp := "t0",
       lat := mkRat 369 10, lon := mkRat (-762) 10, metric := "traffic_count",
       unit := "vehicles", license := "CC0-1.0",
       locality := some "NORFOLK", sourceUrl := none, extra := [],
       dataLocation := some "QmX" },
     [GraphCall.getOrCreateStream "s1" "traffic_count" "vehicles",
      GraphCall.createReading "s1_t0" 42 "vehicles" (mkRat 369 10)
        (mkRat (-762) 10) "t0" none "CC0-1.0" "QmX",
      GraphCall.edgeStreamContainsReading "t0",
      GraphCall.getOrCreateLocality "NORFOLK",
      GraphCall.edgeReadingLocatedInLocality "t0"]) (by decide)
  have h2 := process_reading_in_bounds.2 telemetryEnvW ingestorW "s1" 42 "t0"
    (mkRat 400 10) (mkRat (-740) 10) none none none (by decide)
  exact ⟨h1.1, h2⟩

/-! ## The license allow-list is not enforced (claim C4) -/

/-- An ingestor configured with the non-open license `GPL-3.0`:
`_validate_license` hands it through unchanged. -/
def ingestorGPL : Ingestor :=
  { graphClient := true, storageClient := true, metricType := "air_quality",
    unit := "aqi", dataLicense := validate_license "GPL-3.0",
    storeInIpfs := true }

/-- C4 is violated by the code: `GPL-3.0` is not in `OPEN_DATA_LICENSES`,
yet `_validate_license` returns it unchanged (despite its docstring's
`Raises ValueError`), and `process_reading` stores the reading and
materialises a `telemetry_reading` graph node carrying that license —
nothing rejects it. -/
theorem license_allow_list_not_enforced :
    validate_license "GPL-3.0" = "GPL-3.0" ∧
    "GPL-3.0" ∉ OPEN_DATA_LICENSES ∧
    process_reading telemetryEnvW ingestorGPL "s2" 7 "t1" (mkRat 369 10)
        (mkRat (-762) 10) none none none =
      some ({ streamId := "s2", value := 7, timestamp := "t1",
              lat := mkRat 369 10, lon := mkRat (-762) 10,
              metric := "air_quality", unit := "aqi", license := "GPL-3.0",
              locality := none, sourceUrl := none, extra := [],
              dataLocation := some "QmX" },
            [GraphCall.getOrCreateStream "s2" "air_quality" "aqi",
             GraphCall.createReading "s2_t1" 7 "aqi" (mkRat 369 10)
               (mkRat (-762) 10) "t1" none "GPL-3.0" "QmX",
             GraphCall.edgeStreamContainsReading "t1"]) := by
  refine ⟨rfl, by decide, by decide⟩

/-! ## Agent/utils/merger.py

A chunk result is a JSON dictionary; the keys `smart_union` treats specially
become typed fields (`none` = key absent), and every remaining key/value
pair is kept in `scalars` exactly as `dict.copy` would. -/

/-- Python truthiness of an optional string: present and non-empty. -/
def getTruthy (o : Option String) : Option String :=
  match o with
  | some s => if s = "" then none else some s
  | none => none

structure LocItem where
  name : Option String
  lat : Option ℚ
  lng : Option ℚ
  deriving DecidableEq, Repr

structure EntItem where
  name : Option String
  role : Option String
  deriving DecidableEq, Repr

structure DateItem where
  date : Option String
  deriving DecidableEq, Repr

structure EntBlock where
  people : Option (List EntItem)
  organizations : Option (List EntItem)
  companies : Option (List EntItem)
  deriving DecidableEq, Repr

structure ChunkResult where
  locations : Option (List LocItem)
  entities : Option EntBlock
  dates : Option (List DateItem)
  scalars : List (String × String)
  deriving DecidableEq, Repr

/-- `_seen_set(list_items, key)` from `merger.py`: the truthy key values. -/
def seenSetBy {α : Type} (key : α → Option String) (l : List α) : List String :=
  l.filterMap (fun i => getTruthy (key i))

/-- The per-category append loop of `smart_union`: walk the chunk's items,
appending each item whose key is truthy and not yet seen, updating the seen
set. -/
def mergeDedupBy {α : Type} (key : α → Option String) (base newItems : List α) :
    List α :=
  (newItems.foldl
    (fun st it =>
      match getTruthy (key it) with
      | some nm => if nm ∈ st.2 then st else (st.1 ++ [it], st.2 ++ [nm])
      | none => st)
    (base, seenSetBy key base)).1

/-- One category update: `if <key> in chunk:` then
`merged.setdefault(<key>, [])` followed by the dedup-append loop. -/
def catStep {α : Type} (key : α → Option String)
    (merged chunk : Option (List α)) : Option (List α) :=
  match chunk with
  | none => merged
  | some cl => some (mergeDedupBy key (merged.getD []) cl)

/-- The body of the `for chunk in chunk_results[1:]` loop of `smart_union`:
locations, the three entity categories, and dates are merged with
deduplication; every other key of `merged` (the scalars) is left untouched. -/
def emptyEntBlock : EntBlock :=
  { people := none, organizations := none, companies := none }

def mergeChunk (merged chunk : ChunkResult) : ChunkResult :=
  { merged with
    locations := catStep (fun l => l.name) merged.locations chunk.locations,
    entities :=
      (match chunk.entities with
      | none => merged.entities
      | some ce =>
        some { people := catStep (fun e => e.name)
                 (merged.entities.getD emptyEntBlock).people ce.people,
               organizations := catStep (fun e => e.name)
                 (merged.entities.getD emptyEntBlock).organizations
                 ce.organizations,
               companies := catStep (fun e => e.name)
                 (merged.entities.getD emptyEntBlock).companies ce.companies }),
    dates := catStep (fun d => d.date) merged.dates chunk.dates }

/-- `smart_union` from `Agent/utils/merger.py`: empty input yields the empty
dict; otherwise start from a copy of the first chunk and merge the rest. -/
def smart_union (chunkResults : List ChunkResult) : ChunkResult :=
  match chunkResults with
  | [] => { locations := none, entities := none, dates := none, scalars := [] }
  | first :: rest => rest.foldl mergeChunk first

/-! ## Theorems about smart_union (claim C8) -/

/-- Entity-category projections through the optional `entities` block. -/
def entPeople (c : ChunkResult) : Option (List EntItem) :=
  c.entities.bind (fun eb => eb.people)

def entOrgs (c : ChunkResult) : Option (List EntItem) :=
  c.entities.bind (fun eb => eb.organizations)

def entComps (c : ChunkResult) : Option (List EntItem) :=
  c.entities.bind (fun eb => eb.companies)

/-- Specification shape for one merged category: the base list is kept
verbatim (duplicates included) and extended by appended items, each carrying
a truthy key not seen in the base, the appended keys mutually distinct. -/
def DedupExtends {α : Type} (key : α → Option String)
    (final base : Option (List α)) : Prop :=
  ∃ t, (final = base ∧ t = [] ∨ final = some (base.getD [] ++ t)) ∧
    (∀ it ∈ t, ∃ nm, getTruthy (key it) = some nm ∧
      nm ∉ seenSetBy key (base.getD [])) ∧
    List.Pairwise (fun a b => getTruthy (key a) ≠ getTruthy (key b)) t

theorem mergeFold_spec {α : Type} (key : α → Option String)
    (newItems : List α) :
    ∀ base : List α,
      ∃ t, (newItems.foldl
          (fun st it =>
            match getTruthy (key it) with
            | some nm => if nm ∈ st.2 then st else (st.1 ++ [it], st.2 ++ [nm])
            | none => st)
          (base, seenSetBy key base)) =
            (base ++ t, seenSetBy key (base ++ t)) ∧
        (∀ it ∈ t, ∃ nm, getTruthy (key it) = some nm ∧
          nm ∉ seenSetBy key base) ∧
        List.Pairwise (fun a b => getTruthy (key a) ≠ getTruthy (key b)) t := by
  induction newItems with
  | nil =>
    intro base
    exact ⟨[], by simp, by simp, List.Pairwise.nil⟩
  | cons it rest ih =>
    intro base
    cases htr : getTruthy (key it) with
    | none =>
      obtain ⟨t, h1, h2, h3⟩ := ih base
      refine ⟨t, ?_, h2, h3⟩
      simpa [List.foldl, htr] using h1
    | some nm =>
      by_cases hmem : nm ∈ seenSetBy key base
      · obtain ⟨t, h1, h2, h3⟩ := ih base
        refine ⟨t, ?_, h2, h3⟩
        simpa [List.foldl, htr, hmem] using h1
      · obtain ⟨t, h1, h2, h3⟩ := ih (base ++ [it])
        have hseen : seenSetBy key (base ++ [it]) = seenSetBy key base ++ [nm] := by
          simp [seenSetBy, List.filterMap_append, htr]
        refine ⟨it :: t, ?_, ?_, ?_⟩
        · rw [hseen] at h1
          simp only [List.foldl, htr, if_neg hmem]
          rw [h1]
          simp
        · intro x hx
          rcases List.mem_cons.mp hx with hx | hx
          · subst hx
            exact ⟨nm, htr, hmem⟩
          · obtain ⟨nm2, hnm2, hnotin⟩ := h2 x hx
            refine ⟨nm2, hnm2, fun hc => hnotin ?_⟩
            rw [hseen]
            exact List.mem_append_left _ hc
        · refine List.Pairwise.cons ?_ h3
          intro b hb
          obtain ⟨nm2, hnm2, hnotin⟩ := h2 b hb
          rw [htr, hnm2]
          intro hc
          injection hc with hc
          apply hnotin
          rw [hseen]
          subst hc
          exact List.mem_append_right _ (by simp)

theorem catFold_spec {α : Type} (key : α → Option String)
    (cs : List (Option (List α))) :
    ∀ m : Option (List α),
      DedupExtends key (cs.foldl (catStep key) m) m := by
  induction cs with
  | nil =>
    intro m
    exact ⟨[], Or.inl ⟨rfl, rfl⟩, by simp, List.Pairwise.nil⟩
  | cons c rest ih =>
    intro m
    cases c with
    | none =>
      simpa only [List.foldl, catStep] using ih m
    | some cl =>
      obtain ⟨t1, h1, h2, h3⟩ := mergeFold_spec key cl (m.getD [])
      have hstep : catStep key m (some cl) = some (m.getD [] ++ t1) := by
        simp [catStep, mergeDedupBy, h1]
      obtain ⟨t2, h4, h5, h6⟩ := ih (some (m.getD [] ++ t1))
      have hmemseen : ∀ a ∈ t1, ∀ nm, getTruthy (key a) = some nm →
          nm ∈ seenSetBy key (m.getD [] ++ t1) := by
        intro a ha nm hnm
        simp only [seenSetBy, List.mem_filterMap]
        exact ⟨a, List.mem_append_right _ ha, hnm⟩
      refine ⟨t1 ++ t2, ?_, ?_, ?_⟩
      · rcases h4 with ⟨h4, ht2⟩ | h4
        · subst ht2
          right
          simp only [List.foldl, hstep]
          rw [h4]
          simp
        · right
          simp only [List.foldl, hstep]
          rw [h4]
          simp
      · intro x hx
        rcases List.mem_append.mp hx with hx | hx
        · exact h2 x hx
        · obtain ⟨nm2, hnm2, hnotin⟩ := h5 x hx
          refine ⟨nm2, hnm2, fun hc => hnotin ?_⟩
          simp only [Option.getD_some]
          rw [seenSetBy, List.filterMap_append] at *
          exact List.mem_append_left _ hc
      · rw [List.pairwise_append]
        refine ⟨h3, h6, ?_⟩
        intro a ha b hb
        obtain ⟨nma, hnma, _⟩ := h2 a ha
        obtain ⟨nmb, hnmb, hbnotin⟩ := h5 b hb
        rw [hnma, hnmb]
        intro hc
        injection hc with hc
        apply hbnotin
        simp only [Option.getD_some]
        subst hc
        exact hmemseen a ha nma hnma

theorem foldl_mergeChunk_scalars (rest : List ChunkResult) :
    ∀ m, (rest.foldl mergeChunk m).scalars = m.scalars := by
  induction rest with
  | nil => intro m; rfl
  | cons c rest ih =>
    intro m
    simpa only [List.foldl] using ih (mergeChunk m c)

theorem foldl_mergeChunk_locations (rest : List ChunkResult) :
    ∀ m, (rest.foldl mergeChunk m).locations =
      (rest.map (fun c => c.locations)).foldl (catStep (fun l => l.name))
        m.locations := by
  induction rest with
  | nil => intro m; rfl
  | cons c rest ih =>
    intro m
    simpa only [List.foldl, List.map] using ih (mergeChunk m c)

theorem foldl_mergeChunk_dates (rest : List ChunkResult) :
    ∀ m, (rest.foldl mergeChunk m).dates =
      (rest.map (fun c => c.dates)).foldl (catStep (fun d => d.date))
        m.dates := by
  induction rest with
  | nil => intro m; rfl
  | cons c rest ih =>
    intro m
    simpa only [List.foldl, List.map] using ih (mergeChunk m c)

theorem mergeChunk_entPeople (m c : ChunkResult) :
    entPeople (mergeChunk m c) =
      catStep (fun e => e.name) (entPeople m) (entPeople c) := by
  rcases hc : c.entities with _ | ce
  · simp [mergeChunk, entPeople, hc, catStep]
  · rcases hm : m.entities with _ | me
    · rcases hp : ce.people with _ | cp
      · simp [mergeChunk, entPeople, hc, hm, hp, catStep, emptyEntBlock]
      · simp [mergeChunk, entPeople, hc, hm, hp, catStep, emptyEntBlock]
    · rcases hp : ce.people with _ | cp
      · simp [mergeChunk, entPeople, hc, hm, hp, catStep]
      · simp [mergeChunk, entPeople, hc, hm, hp, catStep]

theorem mergeChunk_entOrgs (m c : ChunkResult) :
    entOrgs (mergeChunk m c) =
      catStep (fun e => e.name) (entOrgs m) (entOrgs c) := by
  rcases hc : c.entities with _ | ce
  · simp [mergeChunk, entOrgs, hc, catStep]
  · rcases hm : m.entities with _ | me
    · rcases hp : ce.organizations with _ | cp
      · simp [mergeChunk, entOrgs, hc, hm, hp, catStep, emptyEntBlock]
      · simp [mergeChunk, entOrgs, hc, hm, hp, catStep, emptyEntBlock]
    · rcases hp : ce.organizations with _ | cp
      · simp [mergeChunk, entOrgs, hc, hm, hp, catStep]
      · simp [mergeChunk, entOrgs, hc, hm, hp, catStep]

theorem mergeChunk_entComps (m c : ChunkResult) :
    entComps (mergeChunk m c) =
      catStep (fun e => e.name) (entComps m) (entComps c) := by
  rcases hc : c.entities with _ | ce
  · simp [mergeChunk, entComps, hc, catStep]
  · rcases hm : m.entities with _ | me
    · rcases hp : ce.companies with _ | cp
      · simp [mergeChunk, entComps, hc, hm, hp, catStep, emptyEntBlock]
      · simp [mergeChunk, entComps, hc, hm, hp, catStep, emptyEntBlock]
    · rcases hp : ce.companies with _ | cp
      · simp [mergeChunk, entComps, hc, hm, hp, catStep]
      · simp [mergeChunk, entComps, hc, hm, hp, catStep]

theorem foldl_mergeChunk_entPeople (rest : List ChunkResult) :
    ∀ m, entPeople (rest.foldl mergeChunk m) =
      (rest.map entPeople).foldl (catStep (fun e => e.name)) (entPeople m) := by
  induction rest with
  | nil => intro m; rfl
  | cons c rest ih =>
    intro m
    simp only [List.foldl, List.map]
    rw [ih (mergeChunk m c), mergeChunk_entPeople]

theorem foldl_mergeChunk_entOrgs (rest : List ChunkResult) :
    ∀ m, entOrgs (rest.foldl mergeChunk m) =
      (rest.map entOrgs).foldl (catStep (fun e => e.name)) (entOrgs m) := by
  induction rest with
  | nil => intro m; rfl
  | cons c rest ih =>
    intro m
    simp only [List.foldl, List.map]
    rw [ih (mergeChunk m c), mergeChunk_entOrgs]

theorem foldl_mergeChunk_entComps (rest : List ChunkResult) :
    ∀ m, entComps (rest.foldl mergeChunk m) =
      (rest.map entComps).foldl (catStep (fun e => e.name)) (entComps m) := by
  induction rest with
  | nil => intro m; rfl
  | cons c rest ih =>
    intro m
    simp only [List.foldl, List.map]
    rw [ih (mergeChunk m c), mergeChunk_entComps]

/-- C8 amended: `smart_union` keeps the first chunk verbatim — every scalar
field takes the first chunk's value (empty or not) and each list category
keeps the first chunk's items including duplicates — and appends, per
category, only later-chunk items whose key (`name` for locations and entity
categories, `date` for dates) is non-empty, not already present, and
mutually distinct. -/
theorem smart_union_shape (first : ChunkResult) (rest : List ChunkResult) :
    (smart_union (first :: rest)).scalars = first.scalars ∧
    DedupExtends (fun l => l.name) (smart_union (first :: rest)).locations
      first.locations ∧
    DedupExtends (fun e => e.name) (entPeople (smart_union (first :: rest)))
      (entPeople first) ∧
    DedupExtends (fun e => e.name) (entOrgs (smart_union (first :: rest)))
      (entOrgs first) ∧
    DedupExtends (fun e => e.name) (entComps (smart_union (first :: rest)))
      (entComps first) ∧
    DedupExtends (fun d => d.date) (smart_union (first :: rest)).dates
      first.dates := by
  refine ⟨foldl_mergeChunk_scalars rest first, ?_, ?_, ?_, ?_, ?_⟩
  · rw [show smart_union (first :: rest) = rest.foldl mergeChunk first from rfl,
      foldl_mergeChunk_locations]
    exact catFold_spec _ _ first.locations
  · rw [show smart_union (first :: rest) = rest.foldl mergeChunk first from rfl,
      foldl_mergeChunk_entPeople]
    exact catFold_spec _ _ (entPeople first)
  · rw [show smart_union (first :: rest) = rest.foldl mergeChunk first from rfl,
      foldl_mergeChunk_entOrgs]
    exact catFold_spec _ _ (entOrgs first)
  · rw [show smart_union (first :: rest) = rest.foldl mergeChunk first from rfl,
      foldl_mergeChunk_entComps]
    exact catFold_spec _ _ (entComps first)
  · rw [show smart_union (first :: rest) = rest.foldl mergeChunk first from rfl,
      foldl_mergeChunk_dates]
    exact catFold_spec _ _ first.dates

/-- First chunk: two locations both named `A`, and an empty `title`. -/
def chunkA : ChunkResult :=
  { locations := some [{ name := some "A", lat := none, lng := none },
      { name := some "A", lat := none, lng := none }],
    entities := none, dates := none, scalars := [("title", "")] }

/-- Second chunk: a non-empty `title` and nothing else. -/
def chunkB : ChunkResult :=
  { locations := none, entities := none, dates := none,
    scalars := [("title", "Pier X")] }

/-- C8 as stated is false on the code: merging `[chunkA, chunkB]` keeps both
duplicate `A` locations (the first chunk is never deduplicated) and keeps the
first chunk's empty `title` instead of the first non-empty value `Pier X`. -/
theorem smart_union_claim_counterexample :
    smart_union [chunkA, chunkB] = chunkA ∧
    ((smart_union [chunkA, chunkB]).locations.getD []).map (fun l => l.name) =
      [some "A", some "A"] ∧
    pyDictGet (smart_union [chunkA, chunkB]).scalars "title" = some "" := by
  refine ⟨by decide, by decide, by decide⟩

/-! ## graph_db/geospatial.py

Coordinates are reals (the source works on floats and feeds them through
`math.radians` and sklearn's haversine BallTree).  The BallTree itself is an
external library, so its `query` — which returns, per input point, the
ascending `(distance_in_radians, index)` pairs, the point itself first — is
a parameter.  `EdgeType.NEARBY` is resolved at runtime by attribute lookup
on the enum; `graph_db/schema.py` defines no member of that name. -/

structure GeoNode where
  id : String
  coordinates : Option (ℝ × ℝ)

structure GeoEdge where
  src : String
  dst : String
  etype : String
  distance_km : ℝ

structure GeoGraph where
  nodes : List GeoNode
  edges : List GeoEdge

/-- networkx `G.has_edge(u, v)`. -/
def has_edge (g : GeoGraph) (u v : String) : Bool :=
  g.edges.any (fun e => e.src == u && e.dst == v)

/-- `EARTH_R = 6371.0088` km from `geospatial.py`. -/
noncomputable def EARTH_R : ℝ := 6371.0088

/-- `_to_rad`: degrees to radians via `math.radians`. -/
noncomputable def to_rad (p : ℝ × ℝ) : ℝ × ℝ :=
  (p.1 * (Real.pi / 180), p.2 * (Real.pi / 180))

/-- Python `round(x, 2)` (ties differ from Python's round-half-even, which
no claim exercises). -/
noncomputable def round2 (x : ℝ) : ℝ :=
  (round (x * 100) : ℤ) / 100

/-- The inner loop of `add_nearest_edges` over `zip(dists[i][1:],
idxs[i][1:])` for one source node: the first edge-addition evaluates
`EdgeType.NEARBY.value`, so reaching it raises `AttributeError`. -/
noncomputable def nearestPairsLoop (nodes : List GeoNode) (maxKm : ℝ)
    (src : String) : List (ℝ × Nat) → GeoGraph → Except String GeoGraph
  | [], g => Except.ok g
  | (dist, j) :: rest, g =>
    if dist * EARTH_R ≤ maxKm then
      match nodes.get? j with
      | none => Except.error "IndexError: list index out of range"
      | some dstN =>
        if has_edge g src dstN.id || has_edge g dstN.id src then
          nearestPairsLoop nodes maxKm src rest g
        else
          match edgeTypeAttr "NEARBY" with
          | Except.error e => Except.error e
          | Except.ok et =>
            nearestPairsLoop nodes maxKm src rest
              { g with edges := g.edges ++
                  [{ src := src, dst := dstN.id, etype := et.value,
                     distance_km := round2 (dist * EARTH_R) }] }
    else nearestPairsLoop nodes maxKm src rest g

/-- The outer loop of `add_nearest_edges` over `enumerate(nodes)`. -/
noncomputable def nearestNodesLoop (nodes : List GeoNode) (maxKm : ℝ)
    (res : List (List (ℝ × Nat))) :
    List (Nat × GeoNode) → GeoGraph → Except String GeoGraph
  | [], g => Except.ok g
  | (i, src) :: rest, g =>
    match nearestPairsLoop nodes maxKm src.id (((res.get? i).getD []).drop 1) g with
    | Except.error e => Except.error e
    | Except.ok g2 => nearestNodesLoop nodes maxKm res rest g2

/-- `add_nearest_edges` from `graph_db/geospatial.py` with the default node
filter (nodes carrying a `coordinates` attribute).  `query` stands for the
haversine BallTree query `tree.query(coords_rad, k=min(k + 1, len(nodes)))`. -/
noncomputable def add_nearest_edges
    (query : List (ℝ × ℝ) → Nat → List (List (ℝ × Nat)))
    (g : GeoGraph) (k : Nat) (maxKm : ℝ) : Except String GeoGraph :=
  let nodes := g.nodes.filter (fun n => n.coordinates.isSome)
  if nodes.length < 2 then Except.ok g
  else
    let coordsRad := nodes.map (fun n => to_rad (n.coordinates.getD (0, 0)))
    nearestNodesLoop nodes maxKm (query coordsRad (min (k + 1) nodes.length))
      (nodes.enum) g

/-- Two coordinate-bearing nodes at the same in-region point. -/
def geoG2 : GeoGraph :=
  { nodes := [{ id := "n1", coordinates := some (36.9, -76.2) },
              { id := "n2", coordinates := some (36.9, -76.2) }],
    edges := [] }

/-- The BallTree answer for two coincident points: each point sees itself
first at distance 0, then the other point at distance 0. -/
def queryCoincident : List (ℝ × ℝ) → Nat → List (List (ℝ × Nat)) :=
  fun _ _ => [[(0, 0), (0, 1)], [(0, 1), (0, 0)]]

/-- C6 is violated by the code: on a graph with two coordinate-bearing nodes
within `max_km` of each other, `add_nearest_edges` raises `AttributeError`
instead of adding a `NEARBY` edge, because the `EdgeType` enum in
`graph_db/schema.py` has no member named `NEARBY` — so no edge is ever
added by this function. -/
theorem add_nearest_edges_raises :
    add_nearest_edges queryCoincident geoG2 3 15 =
      Except.error "AttributeError: EdgeType has no attribute NEARBY" ∧
    edgeTypeMembers.lookup "NEARBY" = none := by
  constructor
  · have hattr : edgeTypeAttr "NEARBY" =
        Except.error "AttributeError: EdgeType has no attribute NEARBY" := by
      rfl
    have hkm : (0 : ℝ) * EARTH_R ≤ 15 := by
      simp [EARTH_R]
    simp only [add_nearest_edges, geoG2, queryCoincident, List.filter,
      Option.isSome, List.length_cons, List.length_nil, List.enum,
      nearestNodesLoop, nearestPairsLoop, List.get?, Option.getD,
      List.drop, has_edge, List.any_nil, Bool.or_self, hattr]
    norm_num [nearestNodesLoop, nearestPairsLoop, has_edge, hattr]
  · rfl

/-! ## ipfs_storage/distributed_storage.py

The Redis hashes (`files`, `storage_nodes`), the local storage directory and
the retry list become explicit state; `random.sample`, the replication POST,
the IPFS client and the clock become environment parameters.  A
`storage_nodes` hash value that fails `json.loads`/key access is `none` (the
source logs and skips it in `_replicate_file`, but `_update_usage` would
re-raise on it). -/

/-- Python `dict[k] = v` on a hash represented in insertion order. -/
def upsert {β : Type} (l : List (String × β)) (k : String) (v : β) :
    List (String × β) :=
  if l.any (fun kv => kv.1 == k) then
    l.map (fun kv => if kv.1 == k then (k, v) else kv)
  else l ++ [(k, v)]

structure NodeInfo where
  path : String
  capacity_gb : ℚ
  used_gb : ℚ
  last_updated : ℚ
  endpoint : Option String
  deriving DecidableEq, Repr

/-- Python truthiness of `node_info.get("endpoint")`. -/
def endpointTruthy (ep : Option String) : Bool :=
  match ep with
  | some e => e != ""
  | none => false

/-- The `storage_info` record kept in the `files` hash. -/
structure StorageRecord where
  file_id : String
  original_name : String
  size_bytes : Nat
  created_at : ℚ
  metadata : List (String × String)
  storage_nodes : List (String × String)
  ipfs_status : String
  ipfs_hash : Option String
  deriving DecidableEq, Repr

structure PoolState where
  files : List (String × StorageRecord)
  localFiles : List String
  retryQueue : List String
  nodesTable : List (String × Option NodeInfo)
  deriving DecidableEq, Repr

structure PoolEnv where
  sample : List (String × NodeInfo) → Nat → List (String × NodeInfo)
  postOk : String → Bool
  postPath : String → String
  ipfsClient : Bool
  ipfsAddOk : Bool
  ipfsHash : String
  now : ℚ
  localUsage : ℚ
  selfEndpoint : Option String

structure PoolCfg where
  nodeId : String
  storagePath : String
  replicationFactor : Nat
  capacityGb : ℚ

/-- The node info written by `_register_storage_node`. -/
def registerInfo (env : PoolEnv) (cfg : PoolCfg) : NodeInfo :=
  { path := cfg.storagePath, capacity_gb := cfg.capacityGb,
    used_gb := env.localUsage, last_updated := env.now,
    endpoint := env.selfEndpoint }

/-- `_update_usage`: re-register when this node's entry is gone, otherwise
re-parse it (an unparseable own entry would raise) and refresh usage. -/
def update_usage (env : PoolEnv) (cfg : PoolCfg) (st : PoolState) :
    Except String PoolState :=
  match st.nodesTable.lookup cfg.nodeId with
  | none =>
    let table := upsert st.nodesTable cfg.nodeId (some (registerInfo env cfg))
    Except.ok { st with nodesTable := table }
  | some none => Except.error "json.loads raised in _update_usage"
  | some (some info) =>
    let refreshed := { info with used_gb := env.localUsage, last_updated := env.now }
    let table := upsert st.nodesTable cfg.nodeId (some refreshed)
    Except.ok { st with nodesTable := table }

/-- The candidate filter of `_replicate_file`: every node other than this
one whose info parses, whose free space covers the file, and whose endpoint
is set. -/
def replicationCandidates (cfg : PoolCfg) (st : PoolState) (fileSizeGb : ℚ) :
    List (String × NodeInfo) :=
  st.nodesTable.filterMap (fun kv =>
    if kv.1 = cfg.nodeId then none
    else match kv.2 with
      | none => none
      | some info =>
        if fileSizeGb ≤ info.capacity_gb - info.used_gb ∧
            endpointTruthy info.endpoint = true then some (kv.1, info)
        else none)

/-- The POST loop of `_replicate_file` over the sampled nodes: each
successful POST appends that peer to the re-read record's replica list
(a falsy endpoint or a failed/raising POST is skipped). -/
def replicationPostLoop (env : PoolEnv) :
    List (String × NodeInfo) → StorageRecord → StorageRecord
  | [], r => r
  | sel :: rest, r =>
    if endpointTruthy sel.2.endpoint then
      if env.postOk sel.1 then
        replicationPostLoop env rest
          { r with storage_nodes := r.storage_nodes ++ [(sel.1, env.postPath sel.1)] }
      else replicationPostLoop env rest r
    else replicationPostLoop env rest r

/-- `_replicate_file`: candidates are filtered, `random.sample` picks
`min(copies, len(candidates))` of them, the `files` record is re-read from
Redis, successful POSTs append to its replica list, and the record is
written back. -/
def replicate_file (env : PoolEnv) (cfg : PoolCfg) (st : PoolState)
    (fileId : String) (fileSizeGb : ℚ) (copies : Nat) :
    Except String PoolState :=
  if st.nodesTable = [] then Except.ok st
  else
    let candidates := replicationCandidates cfg st fileSizeGb
    if candidates = [] then Except.ok st
    else
      let selected := env.sample candidates (min copies candidates.length)
      match st.files.lookup fileId with
      | none => Except.error "TypeError: json.loads(None) in _replicate_file"
      | some record =>
        let files2 := upsert st.files fileId (replicationPostLoop env selected record)
        Except.ok { st with files := files2 }

/-- `file_size / (1024 * 1024 * 1024)` in GB. -/
def gbOfBytes (bytes : Nat) : ℚ :=
  (bytes : ℚ) / (1024 * 1024 * 1024)

structure FileDesc where
  name : String
  contentHash : String
  sizeBytes : Nat
  deriving DecidableEq, Repr

/-- `file_id = "file_" + sha256(content)`. -/
def fileIdOf (file : FileDesc) : String :=
  "file_" ++ file.contentHash

/-- The `storage_info` dictionary built at the top of `store_file` (before
any replication or IPFS attempt): replica list is this node only, promotion
state pending. -/
def initialRecord (env : PoolEnv) (cfg : PoolCfg) (file : FileDesc)
    (md : List (String × String)) : StorageRecord :=
  { file_id := fileIdOf file, original_name := file.name,
    size_bytes := file.sizeBytes, created_at := env.now, metadata := md,
    storage_nodes := [(cfg.nodeId, cfg.storagePath ++ "/" ++ fileIdOf file)],
    ipfs_status := "pending", ipfs_hash := none }

/-- `shutil.copy2` to `<storage_path>/<file_id>`: overwrites any existing
replica at that path, so the directory keeps a single copy per file id. -/
def localCopy (st : PoolState) (fid : String) : PoolState :=
  { st with localFiles :=
      if fid ∈ st.localFiles then st.localFiles else st.localFiles ++ [fid] }

/-- `store_file` from `ipfs_storage/distributed_storage.py`: hash the
content, copy the file locally, build a fresh `storage_info`, write it to
the `files` hash (overwriting any previous entry — there is no
deduplication check), optionally replicate, then attempt IPFS promotion —
on success the *local* `storage_info` variable (which lacks the replicas
appended inside `_replicate_file`) is updated and written back; on failure
the id is pushed onto `ipfs_retry_queue`. -/
def store_file (env : PoolEnv) (cfg : PoolCfg) (st : PoolState)
    (file : FileDesc) (md : List (String × String)) (replicate : Bool) :
    Except String (PoolState × StorageRecord) := do
  let record0 := initialRecord env cfg file md
  let st2 ← update_usage env cfg (localCopy st (fileIdOf file))
  let st3 := { st2 with files := upsert st2.files (fileIdOf file) record0 }
  let st4 ← if replicate = true ∧ 1 < cfg.replicationFactor then
      replicate_file env cfg st3 (fileIdOf file) (gbOfBytes file.sizeBytes)
        (cfg.replicationFactor - 1)
    else pure st3
  if env.ipfsClient then
    if env.ipfsAddOk then
      let recordStored :=
        { record0 with ipfs_hash := some env.ipfsHash, ipfs_status := "stored" }
      pure ({ st4 with files := upsert st4.files (fileIdOf file) recordStored },
        recordStored)
    else
      pure ({ st4 with retryQueue := fileIdOf file :: st4.retryQueue }, record0)
  else
    pure (st4, record0)

/-! ## Theorems about store replication (claims C3 and C9) -/

def insertBy {α : Type} (le : α → α → Bool) (x : α) : List α → List α
  | [] => [x]
  | y :: ys => if le x y then x :: y :: ys else y :: insertBy le x ys

def sortBy {α : Type} (le : α → α → Bool) : List α → List α
  | [] => []
  | x :: xs => insertBy le x (sortBy le xs)

/-- Modelled from the spec: the claimed peer-selection rule —
largest free space first, ties broken by lexicographic node id — which the
source does not implement (it calls `random.sample`). -/
def spec_peer_selection (candidates : List (String × NodeInfo))
    (copies : Nat) : List (String × NodeInfo) :=
  (sortBy (fun a b =>
      decide (b.2.capacity_gb - b.2.used_gb < a.2.capacity_gb - a.2.used_gb) ||
      (decide (a.2.capacity_gb - a.2.used_gb = b.2.capacity_gb - b.2.used_gb) &&
       decide (a.1 < b.1)))
    candidates).take copies

/-- The contract of `random.sample(population, n)`: `n` distinct elements of
the population (in arbitrary order). -/
def SampleValid (sample : List (String × NodeInfo) → Nat →
    List (String × NodeInfo)) : Prop :=
  ∀ l n, (sample l n).length = min n l.length ∧ ∀ x ∈ sample l n, x ∈ l

theorem lookup_append_singleton {β : Type} (l : List (String × β)) (k : String)
    (v : β) (h : l.any (fun kv => kv.1 == k) = false) :
    (l ++ [(k, v)]).lookup k = some v := by
  induction l with
  | nil => simp [List.lookup]
  | cons kv rest ih =>
    simp only [List.any_cons, Bool.or_eq_false_iff] at h
    have hne : (k == kv.1) = false := by
      have h1 := h.1
      simp only [beq_eq_false_iff_ne] at h1 ⊢
      exact fun hc => h1 hc.symm
    simp only [List.cons_append, List.lookup, hne]
    exact ih h.2

/-- `lookup` after `hset` of the same key. -/
theorem lookup_upsert {β : Type} (l : List (String × β)) (k : String) (v : β) :
    (upsert l k v).lookup k = some v := by
  induction l with
  | nil => simp [upsert, List.lookup]
  | cons kv rest ih =>
    by_cases hk : kv.1 = k
    · have hbeq : (kv.1 == k) = true := by simp [hk]
      simp [upsert, List.any_cons, hbeq, List.lookup, hk]
    · have hbeq : (kv.1 == k) = false := by simp [hk]
      have hne : (k == kv.1) = false := by
        simp only [beq_eq_false_iff_ne]
        exact fun hc => hk hc.symm
      by_cases hr : rest.any (fun kv => kv.1 == k) = true
      · have hany : (kv :: rest).any (fun kv => kv.1 == k) = true := by
          simp [List.any_cons, hr]
        have ih2 := ih
        simp only [upsert, hr, if_true] at ih2
        simp only [upsert, hany, if_true, List.map_cons, hbeq,
          Bool.false_eq_true, if_false, List.lookup, hne]
        exact ih2
      · simp only [Bool.not_eq_true] at hr
        have hany : (kv :: rest).any (fun kv => kv.1 == k) = false := by
          simp [List.any_cons, hr, hbeq]
        simp only [upsert, hany, Bool.false_eq_true, if_false]
        exact lookup_append_singleton _ _ _ hany

theorem upsert_keys {β : Type} (l : List (String × β)) (k : String) (v : β) :
    (upsert l k v).map (fun kv => kv.1) =
      if l.any (fun kv => kv.1 == k) = true then l.map (fun kv => kv.1)
      else l.map (fun kv => kv.1) ++ [k] := by
  by_cases h : l.any (fun kv => kv.1 == k) = true
  · simp only [upsert, h, if_true, List.map_map]
    apply List.map_congr_left
    intro kv _
    by_cases hkv : (kv.1 == k) = true
    · simp [Function.comp, hkv, (eq_of_beq hkv).symm]
    · simp [Function.comp, hkv]
  · simp [upsert, h]

theorem upsert_keys_nodup {β : Type} (l : List (String × β)) (k : String)
    (v : β) (hu : (l.map (fun kv => kv.1)).Nodup) :
    ((upsert l k v).map (fun kv => kv.1)).Nodup := by
  rw [upsert_keys]
  by_cases h : l.any (fun kv => kv.1 == k) = true
  · simpa [h] using hu
  · have hnot : k ∉ l.map (fun kv => kv.1) := by
      intro hc
      obtain ⟨kv, hkv, hk⟩ := List.mem_map.mp hc
      exact h (List.any_eq_true.mpr ⟨kv, hkv, by simp [hk]⟩)
    simp [h, List.nodup_append, hu, hnot]

theorem countP_upsert {β : Type} (l : List (String × β)) (k : String) (v : β)
    (hu : (l.map (fun kv => kv.1)).Nodup) :
    (upsert l k v).countP (fun kv => kv.1 == k) = 1 := by
  have hmap : (upsert l k v).countP (fun kv => kv.1 == k) =
      ((upsert l k v).map (fun kv => kv.1)).count k := by
    rw [List.count, List.countP_map]
    rfl
  rw [hmap, upsert_keys]
  by_cases h : l.any (fun kv => kv.1 == k) = true
  · rw [if_pos h]
    obtain ⟨kv, hkv, hbeq⟩ := List.any_eq_true.mp h
    have hmem : k ∈ l.map (fun kv => kv.1) :=
      List.mem_map.mpr ⟨kv, hkv, eq_of_beq hbeq⟩
    have hle := List.nodup_iff_count_le_one.mp hu k
    have hpos := List.count_pos_iff.mpr hmem
    omega
  · rw [if_neg h]
    have hnot : k ∉ l.map (fun kv => kv.1) := by
      intro hc
      obtain ⟨kv, hkv, hk⟩ := List.mem_map.mp hc
      exact h (List.any_eq_true.mpr ⟨kv, hkv, by simp [hk]⟩)
    rw [List.count_append]
    simp [List.count_eq_zero_of_not_mem hnot]

/-- The POST loop only appends: the record comes back with the old replica
list as a prefix, each appended replica being a sampled peer with a truthy
endpoint whose POST succeeded. -/
theorem replicationPostLoop_spec (env : PoolEnv) :
    ∀ (selected : List (String × NodeInfo)) (record : StorageRecord),
      ∃ newReps, replicationPostLoop env selected record =
        { record with storage_nodes := record.storage_nodes ++ newReps } ∧
      newReps.length ≤ selected.length ∧
      ∀ rep ∈ newReps, ∃ sel, sel ∈ selected ∧
        rep = (sel.1, env.postPath sel.1) ∧
        endpointTruthy sel.2.endpoint = true ∧ env.postOk sel.1 = true := by
  intro selected
  induction selected with
  | nil =>
    intro record
    exact ⟨[], by simp [replicationPostLoop], by simp, by simp⟩
  | cons sel rest ih =>
    intro record
    by_cases he : endpointTruthy sel.2.endpoint = true
    · by_cases hp : env.postOk sel.1 = true
      · obtain ⟨t, h1, h2, h3⟩ := ih { record with storage_nodes :=
          record.storage_nodes ++ [(sel.1, env.postPath sel.1)] }
        refine ⟨(sel.1, env.postPath sel.1) :: t, ?_, ?_, ?_⟩
        · simp only [replicationPostLoop, if_pos he, if_pos hp]
          rw [h1]
          simp
        · simpa using Nat.succ_le_succ h2
        · intro rep hrep
          rcases List.mem_cons.mp hrep with hrep | hrep
          · exact ⟨sel, List.mem_cons_self _ _, by rw [hrep], he, hp⟩
          · obtain ⟨s2, hs2, h4, h5, h6⟩ := h3 rep hrep
            exact ⟨s2, List.mem_cons_of_mem _ hs2, h4, h5, h6⟩
      · obtain ⟨t, h1, h2, h3⟩ := ih record
        refine ⟨t, ?_, Nat.le_succ_of_le h2, ?_⟩
        · simpa only [replicationPostLoop, if_pos he, if_neg hp] using h1
        · intro rep hrep
          obtain ⟨s2, hs2, h4, h5, h6⟩ := h3 rep hrep
          exact ⟨s2, List.mem_cons_of_mem _ hs2, h4, h5, h6⟩
    · obtain ⟨t, h1, h2, h3⟩ := ih record
      refine ⟨t, ?_, Nat.le_succ_of_le h2, ?_⟩
      · simpa only [replicationPostLoop, if_neg he] using h1
      · intro rep hrep
        obtain ⟨s2, hs2, h4, h5, h6⟩ := h3 rep hrep
        exact ⟨s2, List.mem_cons_of_mem _ hs2, h4, h5, h6⟩

/-- C9 amended: `_replicate_file` picks the peers by `random.sample` over
the candidate set (every node other than this one whose registry entry
parses, whose free space covers the file, and whose endpoint is set) — no
ordering by free space or node id.  Under the `random.sample` contract, the
record gains at most `copies` new replicas, each one a sampled candidate
whose POST succeeded. -/
theorem replicate_file_selection (env : PoolEnv) (cfg : PoolCfg)
    (st : PoolState) (fileId : String) (sizeGb : ℚ) (copies : Nat)
    (st2 : PoolState) (hs : SampleValid env.sample)
    (hok : replicate_file env cfg st fileId sizeGb copies = Except.ok st2) :
    st2 = st ∨
    ∃ record newReps,
      st.files.lookup fileId = some record ∧
      st2.files.lookup fileId =
        some { record with storage_nodes := record.storage_nodes ++ newReps } ∧
      newReps.length ≤ copies ∧
      ∀ rep ∈ newReps, ∃ info,
        (rep.1, info) ∈ replicationCandidates cfg st sizeGb ∧
        rep.2 = env.postPath rep.1 ∧ env.postOk rep.1 = true := by
  by_cases hn : st.nodesTable = []
  · left
    simp only [replicate_file, hn, if_true] at hok
    exact (Except.ok.injEq .. ▸ hok).symm
  · by_cases hc : replicationCandidates cfg st sizeGb = []
    · left
      simp only [replicate_file, hn, if_false, hc, if_true] at hok
      exact (Except.ok.injEq .. ▸ hok).symm
    · rcases hl : st.files.lookup fileId with _ | record
      · exfalso
        simp only [replicate_file, hn, if_false, hc, hl] at hok
        exact Except.noConfusion hok
      · right
        simp only [replicate_file, hn, if_false, hc, hl] at hok
        obtain ⟨t, h1, h2, h3⟩ := replicationPostLoop_spec env
          (env.sample (replicationCandidates cfg st sizeGb)
            (min copies (replicationCandidates cfg st sizeGb).length)) record
        have hst2 := Except.ok.inj hok
        refine ⟨record, t, rfl, ?_, ?_, ?_⟩
        · rw [← hst2]
          simp only
          rw [h1]
          exact lookup_upsert _ _ _
        · have hlen := (hs (replicationCandidates cfg st sizeGb)
            (min copies (replicationCandidates cfg st sizeGb).length)).1
          omega
        · intro rep hrep
          obtain ⟨sel, hsel, h4, h5, h6⟩ := h3 rep hrep
          have hselc := (hs (replicationCandidates cfg st sizeGb)
            (min copies (replicationCandidates cfg st sizeGb).length)).2 sel hsel
          refine ⟨sel.2, ?_, ?_, ?_⟩
          · have : (rep.1, sel.2) = sel := by rw [h4]
            rw [this]
            exact hselc
          · rw [h4]
          · rw [h4]
            exact h6

/-- `_update_usage` only touches the node registry. -/
theorem update_usage_state (env : PoolEnv) (cfg : PoolCfg) (s s' : PoolState)
    (h : update_usage env cfg s = Except.ok s') :
    s'.files = s.files ∧ s'.localFiles = s.localFiles ∧
    s'.retryQueue = s.retryQueue := by
  rcases hl : s.nodesTable.lookup cfg.nodeId with _ | oi
  · simp only [update_usage, hl] at h
    rw [← Except.ok.inj h]
    exact ⟨rfl, rfl, rfl⟩
  · rcases oi with _ | info
    · simp only [update_usage, hl] at h
      exact Except.noConfusion h
    · simp only [update_usage, hl] at h
      rw [← Except.ok.inj h]
      exact ⟨rfl, rfl, rfl⟩

/-- `_replicate_file` only touches the `files` hash, and only through a
single `hset` of the given file id. -/
theorem replicate_file_state (env : PoolEnv) (cfg : PoolCfg) (st : PoolState)
    (fid : String) (sizeGb : ℚ) (copies : Nat) (st2 : PoolState)
    (h : replicate_file env cfg st fid sizeGb copies = Except.ok st2) :
    st2.localFiles = st.localFiles ∧ st2.retryQueue = st.retryQueue ∧
    (st2.files = st.files ∨ ∃ r, st2.files = upsert st.files fid r) := by
  by_cases hn : st.nodesTable = []
  · simp only [replicate_file, hn, if_true] at h
    rw [← Except.ok.inj h]
    exact ⟨rfl, rfl, Or.inl rfl⟩
  · by_cases hc : replicationCandidates cfg st sizeGb = []
    · simp only [replicate_file, hn, if_false, hc, if_true] at h
      rw [← Except.ok.inj h]
      exact ⟨rfl, rfl, Or.inl rfl⟩
    · rcases hl : st.files.lookup fid with _ | record
      · simp only [replicate_file, hn, if_false, hc, hl] at h
        exact Except.noConfusion h
      · simp only [replicate_file, hn, if_false, hc, hl] at h
        rw [← Except.ok.inj h]
        exact ⟨rfl, rfl, Or.inr ⟨_, rfl⟩⟩

/-- Through `_replicate_file`, an existing record keeps its replica list as
a prefix. -/
theorem replicate_file_lookup (env : PoolEnv) (cfg : PoolCfg) (st : PoolState)
    (fid : String) (sizeGb : ℚ) (copies : Nat) (st2 : PoolState)
    (record : StorageRecord)
    (h : replicate_file env cfg st fid sizeGb copies = Except.ok st2)
    (hl : st.files.lookup fid = some record) :
    ∃ t, st2.files.lookup fid =
      some { record with storage_nodes := record.storage_nodes ++ t } := by
  by_cases hn : st.nodesTable = []
  · simp only [replicate_file, hn, if_true] at h
    rw [← Except.ok.inj h]
    exact ⟨[], by simpa using hl⟩
  · by_cases hc : replicationCandidates cfg st sizeGb = []
    · simp only [replicate_file, hn, if_false, hc, if_true] at h
      rw [← Except.ok.inj h]
      exact ⟨[], by simpa using hl⟩
    · simp only [replicate_file, hn, if_false, hc, hl] at h
      rw [← Except.ok.inj h]
      obtain ⟨t, h1, _, _⟩ := replicationPostLoop_spec env
        (env.sample (replicationCandidates cfg st sizeGb)
          (min copies (replicationCandidates cfg st sizeGb).length)) record
      refine ⟨t, ?_⟩
      simp only
      rw [h1]
      exact lookup_upsert _ _ _

theorem localCopy_count (st : PoolState) (fid : String)
    (h : st.localFiles.Nodup) :
    (localCopy st fid).localFiles.count fid = 1 ∧
    (localCopy st fid).localFiles.Nodup := by
  by_cases hmem : fid ∈ st.localFiles
  · have hle := List.nodup_iff_count_le_one.mp h fid
    have hpos := List.count_pos_iff.mpr hmem
    constructor
    · simp only [localCopy, if_pos hmem]
      omega
    · simpa only [localCopy, if_pos hmem] using h
  · constructor
    · simp only [localCopy, if_neg hmem]
      rw [List.count_append]
      simp [List.count_eq_zero_of_not_mem hmem]
    · simp only [localCopy, if_neg hmem]
      simp [List.nodup_append, h, hmem]

/-- C3 amended: a `store_file` call — whatever the state before it, in
particular a second call on the same content — leaves exactly one
`files:<file_id>` entry and a single local replica, but it rebuilds the
entry from scratch: the recorded replica list is the local node followed by
whatever peers this call's `random.sample`/POSTs produced, so the previous
call's replica list is discarded rather than preserved. -/
theorem store_file_second_call_shape (env : PoolEnv) (cfg : PoolCfg)
    (st : PoolState) (file : FileDesc) (md : List (String × String))
    (repl : Bool) (st2 : PoolState) (r2 : StorageRecord)
    (hu : (st.files.map (fun kv => kv.1)).Nodup)
    (hloc : st.localFiles.Nodup)
    (hipfs : env.ipfsClient = false)
    (hok : store_file env cfg st file md repl = Except.ok (st2, r2)) :
    st2.files.countP (fun kv => kv.1 == fileIdOf file) = 1 ∧
    st2.localFiles.count (fileIdOf file) = 1 ∧
    ∃ newReps, st2.files.lookup (fileIdOf file) =
      some { initialRecord env cfg file md with storage_nodes :=
        (cfg.nodeId, cfg.storagePath ++ "/" ++ fileIdOf file) :: newReps } := by
  simp only [store_file, bind, Except.bind, hipfs, Bool.false_eq_true,
    if_false] at hok
  rcases huu : update_usage env cfg (localCopy st (fileIdOf file)) with e | stU
  · rw [huu] at hok
    exact Except.noConfusion hok
  · rw [huu] at hok
    dsimp only at hok
    obtain ⟨hfilesU, hlocU, _⟩ := update_usage_state _ _ _ _ huu
    have hlocCnt := localCopy_count st (fileIdOf file) hloc
    have hfilesU2 : stU.files = st.files := by
      rw [hfilesU]
      rfl
    have hlocU2 : stU.localFiles = (localCopy st (fileIdOf file)).localFiles :=
      hlocU
    set rec0 := initialRecord env cfg file md with hrec0
    set st3 := { stU with files := upsert stU.files (fileIdOf file) rec0 }
      with hst3
    by_cases hrep : repl = true ∧ 1 < cfg.replicationFactor
    · rw [if_pos hrep] at hok
      rcases hrr : replicate_file env cfg st3 (fileIdOf file)
          (gbOfBytes file.sizeBytes) (cfg.replicationFactor - 1) with e | st4
      · rw [hrr] at hok
        exact Except.noConfusion hok
      · rw [hrr] at hok
        simp only [pure, Except.pure, Except.ok.injEq, Prod.mk.injEq] at hok
        obtain ⟨hst2, _⟩ := hok
        obtain ⟨hl4, _, hf4⟩ := replicate_file_state _ _ _ _ _ _ _ hrr
        obtain ⟨t, hlook⟩ := replicate_file_lookup _ _ _ _ _ _ _ _ hrr
          (lookup_upsert _ _ _)
        subst hst2
        refine ⟨?hole1, ?hole2, ?hole3⟩
        case hole1 =>
          rcases hf4 with hf4 | ⟨r, hf4⟩
          · rw [hf4, hst3]
            simp only [hfilesU2]
            exact countP_upsert _ _ _ hu
          · rw [hf4, hst3]
            apply countP_upsert
            simp only [hfilesU2]
            exact upsert_keys_nodup _ _ _ hu
        case hole2 =>
          rw [hl4, hst3]
          simp only [hlocU2]
          exact hlocCnt.1
        case hole3 =>
          refine ⟨t, ?_⟩
          rw [hlook]
          simp [hrec0, initialRecord]
    · rw [if_neg hrep] at hok
      simp only [pure, Except.pure, Except.ok.injEq, Prod.mk.injEq] at hok
      obtain ⟨hst2, _⟩ := hok
      subst hst2
      refine ⟨?hole1, ?hole2, ⟨[], ?hole3⟩⟩
      case hole1 =>
        rw [hst3]
        simp only [hfilesU2]
        exact countP_upsert _ _ _ hu
      case hole2 =>
        rw [hst3]
        simp only [hlocU2]
        exact hlocCnt.1
      case hole3 =>
        rw [hst3]
        simp only
        rw [lookup_upsert]
        simp [hrec0, initialRecord]

/-- This node's registry entry. -/
def infoSelf : NodeInfo :=
  { path := "./temp_storage", capacity_gb := 50, used_gb := 0,
    last_updated := 0, endpoint := some "http://self" }

/-- Peer `b_node`: 9 GB free. -/
def infoB : NodeInfo :=
  { path := "/b", capacity_gb := 10, used_gb := 1, last_updated := 0,
    endpoint := some "http://b" }

/-- Peer `c_node`: 1 GB free. -/
def infoC : NodeInfo :=
  { path := "/c", capacity_gb := 10, used_gb := 9, last_updated := 0,
    endpoint := some "http://c" }

def cfgPool : PoolCfg :=
  { nodeId := "self_node", storagePath := "./temp_storage",
    replicationFactor := 2, capacityGb := 50 }

/-- An environment whose `random.sample` outcome happens to be the first
candidates; IPFS daemon unavailable. -/
def envFirst : PoolEnv :=
  { sample := fun l n => l.take n, postOk := fun _ => true,
    postPath := fun n => "/rep/" ++ n, ipfsClient := false,
    ipfsAddOk := false, ipfsHash := "Qm", now := 0, localUsage := 0,
    selfEndpoint := some "http://self" }

/-- The same environment, but `random.sample` happens to return the last
candidates instead. -/
def envLast : PoolEnv :=
  { envFirst with sample := fun l n => l.reverse.take n }

def poolNodesTable : List (String × Option NodeInfo) :=
  [("self_node", some infoSelf), ("b_node", some infoB),
   ("c_node", some infoC)]

def poolSt0 : PoolState :=
  { files := [], localFiles := [], retryQueue := [],
    nodesTable := poolNodesTable }

def fileDoc : FileDesc :=
  { name := "doc.txt", contentHash := "h", sizeBytes := 0 }

/-- The record store_file returns (replicas as of before replication). -/
def poolRec1 : StorageRecord :=
  { file_id := "file_h", original_name := "doc.txt", size_bytes := 0,
    created_at := 0, metadata := [],
    storage_nodes := [("self_node", "./temp_storage/file_h")],
    ipfs_status := "pending", ipfs_hash := none }

/-- State after the first `store_file` call: replicated to `b_node`. -/
def poolSt1 : PoolState :=
  { files := [("file_h", { poolRec1 with storage_nodes :=
      [("self_node", "./temp_storage/file_h"), ("b_node", "/rep/b_node")] })],
    localFiles := ["file_h"], retryQueue := [],
    nodesTable := poolNodesTable }

/-- State after the second `store_file` call: the entry was rebuilt and this
time replicated to `c_node`. -/
def poolSt2 : PoolState :=
  { files := [("file_h", { poolRec1 with storage_nodes :=
      [("self_node", "./temp_storage/file_h"), ("c_node", "/rep/c_node")] })],
    localFiles := ["file_h"], retryQueue := [],
    nodesTable := poolNodesTable }

/-- C3 as stated is false on the code: calling `store_file` twice on the
same content keeps one `files:file_h` entry and one local replica, but the
second call resets the entry and re-samples peers, so the recorded replica
list changes from `[self_node, b_node]` to `[self_node, c_node]`. -/
theorem store_file_replica_list_not_idempotent :
    store_file envFirst cfgPool poolSt0 fileDoc [] true =
      Except.ok (poolSt1, poolRec1) ∧
    store_file envLast cfgPool poolSt1 fileDoc [] true =
      Except.ok (poolSt2, poolRec1) ∧
    (poolSt1.files.lookup "file_h").map (fun r => r.storage_nodes) =
      some [("self_node", "./temp_storage/file_h"), ("b_node", "/rep/b_node")] ∧
    (poolSt2.files.lookup "file_h").map (fun r => r.storage_nodes) =
      some [("self_node", "./temp_storage/file_h"), ("c_node", "/rep/c_node")] ∧
    poolSt2.files.countP (fun kv => kv.1 == "file_h") = 1 ∧
    poolSt2.localFiles.count "file_h" = 1 := by
  refine ⟨by decide, by decide, by decide, by decide, by decide, by decide⟩

/-- Witness for the amended C3: the concrete second call above satisfies the
proved shape — one entry, one local replica, entry rebuilt from scratch. -/
theorem store_file_second_call_shape_witness :
    poolSt2.files.countP (fun kv => kv.1 == fileIdOf fileDoc) = 1 ∧
    poolSt2.localFiles.count (fileIdOf fileDoc) = 1 ∧
    ∃ newReps, poolSt2.files.lookup (fileIdOf fileDoc) =
      some { initialRecord envLast cfgPool fileDoc [] with storage_nodes :=
        (cfgPool.nodeId,
          cfgPool.storagePath ++ "/" ++ fileIdOf fileDoc) :: newReps } :=
  store_file_second_call_shape envLast cfgPool poolSt1 fileDoc [] true
    poolSt2 poolRec1 (by decide) (by decide) rfl (by decide)

/-- A pool state that already holds the freshly written `files:file_h`
entry, as `_replicate_file` sees it. -/
def poolStEntry : PoolState :=
  { files := [("file_h", poolRec1)], localFiles := ["file_h"],
    retryQueue := [], nodesTable := poolNodesTable }

/-- C9 as stated is false on the code: with candidates `b_node` (9 GB free)
and `c_node` (1 GB free), the spec's largest-free-space-first rule picks
`b_node`, but `_replicate_file` uses `random.sample`, and the sampled
outcome `c_node` is a possible (and here actual) choice. -/
theorem replicate_random_not_largest_free :
    spec_peer_selection (replicationCandidates cfgPool poolStEntry 0) 1 =
      [("b_node", infoB)] ∧
    replicate_file envLast cfgPool poolStEntry "file_h" 0 1 =
      Except.ok { poolStEntry with files := [("file_h",
        { poolRec1 with storage_nodes :=
          [("self_node", "./temp_storage/file_h"),
           ("c_node", "/rep/c_node")] })] } ∧
    ("c_node" : String) ≠ "b_node" := by
  refine ⟨by decide, by decide, by decide⟩

/-- Witness for the amended C9: the concrete replication above satisfies the
proved selection shape — the appended peer is a sampled candidate with
enough free space whose POST succeeded, and at most `copies` were added. -/
theorem replicate_file_selection_witness :
    ({ poolStEntry with files := [("file_h",
        { poolRec1 with storage_nodes :=
          [("self_node", "./temp_storage/file_h"),
           ("b_node", "/rep/b_node")] })] } : PoolState) = poolStEntry ∨
    ∃ record newReps,
      poolStEntry.files.lookup "file_h" = some record ∧
      ({ poolStEntry with files := [("file_h",
          { poolRec1 with storage_nodes :=
            [("self_node", "./temp_storage/file_h"),
             ("b_node", "/rep/b_node")] })] } : PoolState).files.lookup
        "file_h" =
        some { record with storage_nodes := record.storage_nodes ++ newReps } ∧
      newReps.length ≤ 1 ∧
      ∀ rep ∈ newReps, ∃ info,
        (rep.1, info) ∈ replicationCandidates cfgPool poolStEntry 0 ∧
        rep.2 = envFirst.postPath rep.1 ∧ envFirst.postOk rep.1 = true :=
  replicate_file_selection envFirst cfgPool poolStEntry "file_h" 0 1
    { poolStEntry with files := [("file_h",
      { poolRec1 with storage_nodes :=
        [("self_node", "./temp_storage/file_h"),
         ("b_node", "/rep/b_node")] })] }
    (fun l n => ⟨by simp [envFirst, List.length_take],
      fun x hx => List.mem_of_mem_take hx⟩)
    (by decide)

/-! ## Agent/enhanced_document_processor.py — update_graph_database

The JSON graph file (`data/graph_data.json`) becomes a `PyGraph`; property
dictionaries become association lists of `PVal`.  `update_graph_database`
wraps its whole body in `try/except`: the body references the undefined
names `doc_id` (document-type edge, funding without a project) and
`locality_ids` (region-link loop, unconditionally), so every call raises
`NameError`, is caught, returns `False`, and never writes the file. -/

inductive PVal
  | s (v : String)
  | q (v : Option ℚ)
  | list (v : List String)
  | none'
  deriving DecidableEq, Repr

structure GNode where
  id : String
  label : String
  ntype : String
  properties : List (String × PVal)
  deriving DecidableEq, Repr

structure GEdge where
  source : String
  target : String
  relationship : String
  document : String
  deriving DecidableEq, Repr

structure LocData where
  id : String
  name : String
  lat : Option ℚ
  lng : Option ℚ
  documents : List String
  deriving DecidableEq, Repr

structure ProjData where
  id : String
  title : String
  summary : String
  start_date : String
  end_date : String
  status : String
  document : String
  deriving DecidableEq, Repr

structure PyGraph where
  nodes : List GNode
  edges : List GEdge
  projects : List ProjData
  locations : List LocData
  deriving DecidableEq, Repr

def emptyPyGraph : PyGraph :=
  { nodes := [], edges := [], projects := [], locations := [] }

structure AnalysisProject where
  title : Option String
  summary : Option String
  start_date : Option String
  end_date : Option String
  status : Option String
  deriving DecidableEq, Repr

structure AnalysisLocation where
  name : Option String
  lat : Option ℚ
  lng : Option ℚ
  deriving DecidableEq, Repr

structure AnalysisEntity where
  name : Option String
  role : Option String
  deriving DecidableEq, Repr

structure AnalysisRelationship where
  source : Option String
  target : Option String
  relationship : Option String
  deriving DecidableEq, Repr

structure AnalysisFunding where
  amount : Option String
  source : Option String
  details : Option String
  deriving DecidableEq, Repr

/-- The analysis dictionary as `update_graph_database` reads it (`none` =
key missing / falsy block; the entity categories are flattened from the
`entities` sub-dictionary with `[]` defaults). -/
structure Analysis where
  document_path : Option String
  project : Option AnalysisProject
  locations : List AnalysisLocation
  entities_people : List AnalysisEntity
  entities_organizations : List AnalysisEntity
  entities_companies : List AnalysisEntity
  relationships : List AnalysisRelationship
  document_type : Option String
  funding : Option AnalysisFunding
  deriving DecidableEq, Repr

/-- Python `d.get(k, "")`. -/
def pyGetS (o : Option String) : String :=
  o.getD ""

/-- Python truthiness of `d.get(k)` for a string value. -/
def truthyS (o : Option String) : Bool :=
  match o with
  | some s => s != ""
  | none => false

/-- `os.path.basename`: the characters after the last slash. -/
def pyBasename (p : String) : String :=
  String.mk ((p.data.reverse.takeWhile (fun ch => ch ≠ '/')).reverse)

/-- Python `needle in haystack` for strings (substring containment). -/
def pyInStr (needle hay : String) : Bool :=
  (List.range (hay.data.length + 1)).any
    (fun i => needle.data.isPrefixOf (hay.data.drop i))

/-- The project block: appended to `projects` and `nodes` when the project
dict and its title are truthy; returns `project_id` when defined. -/
def projectSection (a : Analysis) (docName : String) (g : PyGraph) :
    PyGraph × Option String :=
  match a.project with
  | some p =>
    if truthyS p.title then
      let pid := "project_" ++ toString g.projects.length
      let pd : ProjData :=
        { id := pid, title := pyGetS p.title, summary := pyGetS p.summary,
          start_date := pyGetS p.start_date, end_date := pyGetS p.end_date,
          status := pyGetS p.status, document := docName }
      let props : List (String × PVal) :=
        [("id", PVal.s pd.id), ("type", PVal.s "project"),
         ("title", PVal.s pd.title), ("summary", PVal.s pd.summary),
         ("start_date", PVal.s pd.start_date), ("end_date", PVal.s pd.end_date),
         ("status", PVal.s pd.status), ("document", PVal.s pd.document)]
      let node : GNode :=
        { id := pid, label := pyGetS p.title, ntype := "project",
          properties := props }
      ({ g with projects := g.projects ++ [pd], nodes := g.nodes ++ [node] },
        some pid)
    else (g, none)
  | none => (g, none)

/-- One iteration of the locations loop. -/
def locationStep (docName : String) (projectId : Option String) (g : PyGraph)
    (loc : AnalysisLocation) : PyGraph :=
  let locName := pyGetS loc.name
  if locName = "" then g
  else
    match g.locations.find? (fun l => l.name == locName) with
    | none =>
      let locId := "location_" ++ toString g.locations.length
      let ld : LocData :=
        { id := locId, name := locName, lat := loc.lat, lng := loc.lng,
          documents := [docName] }
      let node : GNode :=
        { id := locId, label := locName, ntype := "location",
          properties := [("lat", PVal.q loc.lat), ("lng", PVal.q loc.lng)] }
      let g2 :=
        { g with locations := g.locations ++ [ld], nodes := g.nodes ++ [node] }
      match projectId with
      | some pid =>
        let e : GEdge :=
          { source := pid, target := locId, relationship := "located_at",
            document := docName }
        { g2 with edges := g2.edges ++ [e] }
      | none => g2
    | some existing =>
      let g2 :=
        if docName ∈ existing.documents then g
        else { g with locations := g.locations.map (fun l =>
          if l.id == existing.id then
            { l with documents := l.documents ++ [docName] }
          else l) }
      match projectId with
      | some pid =>
        let e : GEdge :=
          { source := pid, target := existing.id,
            relationship := "located_at", document := docName }
        { g2 with edges := g2.edges ++ [e] }
      | none => g2

/-- `if 'documents' not in properties: properties['documents'] = []` then
conditional append. -/
def propsAddDoc (props : List (String × PVal)) (doc : String) :
    List (String × PVal) :=
  match props.lookup "documents" with
  | some (PVal.list ds) =>
    if doc ∈ ds then props
    else upsert props "documents" (PVal.list (ds ++ [doc]))
  | some _ => props
  | none => upsert props "documents" (PVal.list [doc])

/-- One iteration of the people/organizations/companies loops
(`typeName` is the node type, `idPrefixStr` the id prefix: `person`,
`org`, `company`).  The role string is attached RAW as the edge
relationship (default `involved_in` when the key is absent). -/
def entityStep (typeName idPrefixStr docName : String)
    (projectId : Option String) (g : PyGraph) (ent : AnalysisEntity) :
    PyGraph :=
  let name := pyGetS ent.name
  if name = "" then g
  else
    match g.nodes.find? (fun n => n.ntype == typeName && n.label == name) with
    | none =>
      let eid := idPrefixStr ++ "_" ++
        toString (g.nodes.filter (fun n => n.ntype == typeName)).length
      let node : GNode :=
        { id := eid, label := name, ntype := typeName,
          properties := [("role", PVal.s (pyGetS ent.role)),
            ("documents", PVal.list [docName])] }
      let g2 := { g with nodes := g.nodes ++ [node] }
      match projectId with
      | some pid =>
        let e : GEdge :=
          { source := eid, target := pid,
            relationship := ent.role.getD "involved_in", document := docName }
        { g2 with edges := g2.edges ++ [e] }
      | none => g2
    | some existing =>
      let g2 := { g with nodes := g.nodes.map (fun n =>
        if n.id == existing.id then
          { n with properties := propsAddDoc n.properties docName }
        else n) }
      match projectId with
      | some pid =>
        let e : GEdge :=
          { source := existing.id, target := pid,
            relationship := ent.role.getD "involved_in", document := docName }
        { g2 with edges := g2.edges ++ [e] }
      | none => g2

/-- One iteration of the explicit-relationships loop: endpoints are looked
up by label, the edge is deduplicated on the exact
`(source, target, relationship)` triple, and the RAW free-text relationship
string is stored — `canonical_edge` is never consulted. -/
def relationshipStep (docName : String) (g : PyGraph)
    (rel : AnalysisRelationship) : PyGraph :=
  let sname := pyGetS rel.source
  let tname := pyGetS rel.target
  let rname := pyGetS rel.relationship
  if sname = "" || tname = "" || rname = "" then g
  else
    match g.nodes.find? (fun n => n.label == sname),
        g.nodes.find? (fun n => n.label == tname) with
    | some sn, some tn =>
      match g.edges.find? (fun e => e.source == sn.id && e.target == tn.id &&
          e.relationship == rname) with
      | some _ => g
      | none =>
        let e : GEdge :=
          { source := sn.id, target := tn.id, relationship := rname,
            document := docName }
        { g with edges := g.edges ++ [e] }
    | _, _ => g

/-- The document-type block: for patent/research types a type node is
appended, and the following edge append evaluates the undefined `doc_id`,
raising `NameError` (the partially mutated graph is carried in the error). -/
def docTypeSection (a : Analysis) (docName : String) (g : PyGraph) :
    Except (String × PyGraph) PyGraph :=
  let dt := pyLower (pyGetS a.document_type)
  if dt ∈ ["patent", "research", "research_paper", "paper"] then
    let dtype := if pyInStr "patent" dt then "patent" else "research_paper"
    let tid := dtype ++ "_" ++
      toString (g.nodes.filter (fun n => n.ntype == dtype)).length
    let node : GNode :=
      { id := tid, label := docName, ntype := dtype,
        properties := [("document", PVal.s docName), ("cid", PVal.none')] }
    Except.error ("NameError: name doc_id is not defined",
      { g with nodes := g.nodes ++ [node] })
  else Except.ok g

/-- The funding block: when a project id is in scope the `funded_by` edge is
added; otherwise `target_ref` evaluates the undefined `doc_id` and raises. -/
def fundingSection (a : Analysis) (docName : String)
    (projectId : Option String) (g : PyGraph) :
    Except (String × PyGraph) PyGraph :=
  match a.funding with
  | some f =>
    if truthyS f.amount then
      let fid := "funding_" ++
        toString (g.nodes.filter (fun n => n.ntype == "funding")).length
      let props : List (String × PVal) :=
        (match f.amount with | some v => [("amount", PVal.s v)] | none => []) ++
        (match f.source with | some v => [("source", PVal.s v)] | none => []) ++
        (match f.details with | some v => [("details", PVal.s v)] | none => [])
      let node : GNode :=
        { id := fid, label := "$ " ++ pyGetS f.amount, ntype := "funding",
          properties := props }
      let g2 := { g with nodes := g.nodes ++ [node] }
      match projectId with
      | some pid =>
        let e : GEdge :=
          { source := fid, target := pid, relationship := "funded_by",
            document := docName }
        Except.ok { g2 with edges := g2.edges ++ [e] }
      | none => Except.error ("NameError: name doc_id is not defined", g2)
    else Except.ok g
  | none => Except.ok g

/-- The Hampton Roads region node is ensured to exist. -/
def regionSection (g : PyGraph) : PyGraph :=
  match g.nodes.find? (fun n => n.ntype == "region" &&
      n.label == "Hampton Roads") with
  | some _ => g
  | none =>
    let node : GNode :=
      { id := "region_757", label := "Hampton Roads", ntype := "region",
        properties := [("country", PVal.s "USA"),
          ("state", PVal.s "Virginia")] }
    { g with nodes := g.nodes ++ [node] }

/-- The tail of the body after the relationships loop: the document-type
block, the funding block, the region node, and then — unconditionally — the
loop `for loc_id in locality_ids`, which evaluates the undefined name
`locality_ids` and raises `NameError`.  The save/publish/`return True`
lines are therefore unreachable. -/
def updateGraphTail (a : Analysis) (docName : String)
    (projectId : Option String) (g6 : PyGraph) :
    Except (String × PyGraph) PyGraph :=
  match docTypeSection a docName g6 with
  | Except.error e => Except.error e
  | Except.ok g7 =>
    match fundingSection a docName projectId g7 with
    | Except.error e => Except.error e
    | Except.ok g8 =>
      Except.error ("NameError: name locality_ids is not defined",
        regionSection g8)

/-- The `try` body of `update_graph_database`. -/
def updateGraphBody (a : Analysis) (g0 : PyGraph) :
    Except (String × PyGraph) PyGraph :=
  let docName := pyBasename (pyGetS a.document_path)
  let step1 := projectSection a docName g0
  let projectId := step1.2
  let g2 := a.locations.foldl (locationStep docName projectId) step1.1
  let g3 := a.entities_people.foldl
    (entityStep "person" "person" docName projectId) g2
  let g4 := a.entities_organizations.foldl
    (entityStep "organization" "org" docName projectId) g3
  let g5 := a.entities_companies.foldl
    (entityStep "company" "company" docName projectId) g4
  let g6 := a.relationships.foldl (relationshipStep docName) g5
  updateGraphTail a docName projectId g6

/-- `update_graph_database`: loads the graph (absent file → fresh graph),
returns `False` for a falsy analysis, runs the body inside `try/except`
(logging the exception), and saves/publishes only when the body completes —
which it never does.  The pair is (returned bool, saved graph if any). -/
def update_graph_database (analysis : Option Analysis)
    (disk : Option PyGraph) : Bool × Option PyGraph :=
  match analysis with
  | none => (false, none)
  | some a =>
    match updateGraphBody a (disk.getD emptyPyGraph) with
    | Except.ok g => (true, some g)
    | Except.error _ => (false, none)

/-! ## Theorems about graph edge insertion (claim C2) -/

theorem updateGraphTail_raises (a : Analysis) (docName : String)
    (projectId : Option String) (g6 : PyGraph) :
    ∃ msg g2, updateGraphTail a docName projectId g6 =
      Except.error (msg, g2) := by
  unfold updateGraphTail
  rcases hdt : docTypeSection a docName g6 with e | g7
  · exact ⟨e.1, e.2, rfl⟩
  · rcases hf : fundingSection a docName projectId g7 with e | g8
    · exact ⟨e.1, e.2, by simp [hf]⟩
    · exact ⟨"NameError: name locality_ids is not defined",
        regionSection g8, by simp [hf]⟩

theorem updateGraphBody_raises (a : Analysis) (g0 : PyGraph) :
    ∃ msg g2, updateGraphBody a g0 = Except.error (msg, g2) := by
  simp only [updateGraphBody]
  exact updateGraphTail_raises _ _ _ _

/-- An edge literal carrying a raw relationship string. -/
def rawEdge (sid tid rname docName : String) : GEdge :=
  { source := sid, target := tid, relationship := rname, document := docName }

theorem relationshipStep_raw_label (docName : String) (g : PyGraph)
    (rel : AnalysisRelationship) :
    relationshipStep docName g rel = g ∨
    ((relationshipStep docName g rel).nodes = g.nodes ∧
     ∃ sid tid, (relationshipStep docName g rel).edges =
       g.edges ++ [rawEdge sid tid (pyGetS rel.relationship) docName]) := by
  unfold relationshipStep
  dsimp only
  split
  · exact Or.inl rfl
  · split
    · split
      · exact Or.inl rfl
      · right
        exact ⟨rfl, _, _, rfl⟩
    · exact Or.inl rfl

theorem entityStep_raw_role (typeName idPrefixStr docName : String)
    (projectId : Option String) (g : PyGraph) (ent : AnalysisEntity) :
    (entityStep typeName idPrefixStr docName projectId g ent).edges = g.edges ∨
    ∃ sid tid, (entityStep typeName idPrefixStr docName projectId g ent).edges =
      g.edges ++ [rawEdge sid tid (ent.role.getD "involved_in") docName] := by
  unfold entityStep
  dsimp only
  split
  · exact Or.inl rfl
  · split
    · split
      · exact Or.inr ⟨_, _, rfl⟩
      · exact Or.inl rfl
    · split
      · exact Or.inr ⟨_, _, rfl⟩
      · exact Or.inl rfl

/-- C2 amended: `update_graph_database` never calls `canonical_edge` —
every relationship edge carries the raw free-text relationship string, every
entity→project edge carries the raw role string (default `involved_in`),
deduplication is on the exact raw triple — and in fact the function can
never persist anything: its body always raises `NameError` (`locality_ids`
or `doc_id` are undefined), the exception is caught, and it returns `False`
without writing the graph file. -/
theorem update_graph_database_raw_labels :
    (∀ docName g rel, relationshipStep docName g rel = g ∨
      ((relationshipStep docName g rel).nodes = g.nodes ∧
       ∃ sid tid, (relationshipStep docName g rel).edges =
         g.edges ++ [rawEdge sid tid (pyGetS rel.relationship) docName])) ∧
    (∀ typeName idPrefixStr docName projectId g ent,
      (entityStep typeName idPrefixStr docName projectId g ent).edges =
        g.edges ∨
      ∃ sid tid,
        (entityStep typeName idPrefixStr docName projectId g ent).edges =
          g.edges ++ [rawEdge sid tid (ent.role.getD "involved_in") docName]) ∧
    (∀ a disk, update_graph_database a disk = (false, none)) := by
  refine ⟨relationshipStep_raw_label, entityStep_raw_role, ?_⟩
  intro a disk
  rcases a with _ | a
  · rfl
  · obtain ⟨msg, g2, h⟩ := updateGraphBody_raises a (disk.getD emptyPyGraph)
    simp [update_graph_database, h]

/-- Modelled from the spec: the edge-mapping YAML file
(`graph_db/edge_mapping.yaml`) is not in the repository snapshot; these
entries are the ones its unit tests install, mapping both free-text labels
to `WORKED_WITH`. -/
def specEdgeMapping : List (String × String) :=
  [("worked with", "WORKED_WITH"), ("collaborated with", "WORKED_WITH")]

def entA : AnalysisEntity := { name := some "A", role := none }

def entB : AnalysisEntity := { name := some "B", role := none }

def relCollab : AnalysisRelationship :=
  { source := some "A", target := some "B",
    relationship := some "collaborated with" }

def relWorked : AnalysisRelationship :=
  { source := some "A", target := some "B",
    relationship := some "worked with" }

/-- The claim's test input: entities A and B and the two relationships. -/
def analysisTwoRels : Analysis :=
  { document_path := some "docs/a.txt", project := none, locations := [],
    entities_people := [entA, entB], entities_organizations := [],
    entities_companies := [], relationships := [relCollab, relWorked],
    document_type := some "", funding := none }

def personANode : GNode :=
  { id := "person_0", label := "A", ntype := "person",
    properties := [("role", PVal.s ""), ("documents", PVal.list ["a.txt"])] }

def personBNode : GNode :=
  { id := "person_1", label := "B", ntype := "person",
    properties := [("role", PVal.s ""), ("documents", PVal.list ["a.txt"])] }

def regionNode757 : GNode :=
  { id := "region_757", label := "Hampton Roads", ntype := "region",
    properties := [("country", PVal.s "USA"), ("state", PVal.s "Virginia")] }

def edgeCollabRaw : GEdge :=
  { source := "person_0", target := "person_1",
    relationship := "collaborated with", document := "a.txt" }

def edgeWorkedRaw : GEdge :=
  { source := "person_0", target := "person_1",
    relationship := "worked with", document := "a.txt" }

/-- The in-memory graph at the moment the body raises. -/
def graphTwoRels : PyGraph :=
  { nodes := [personANode, personBNode, regionNode757],
    edges := [edgeCollabRaw, edgeWorkedRaw], projects := [], locations := [] }

/-- C2 as stated is false on the code: `canonical_edge` maps both
`collaborated with` and `worked with` to `WORKED_WITH`, so the claim
predicts exactly one `A → B` edge of type `worked_with`; but
`update_graph_database` inserts TWO edges carrying the raw labels (it never
canonicalises), and then raises `NameError` on the undefined `locality_ids`
so that nothing is saved and it returns `False`. -/
theorem update_graph_relationships_not_canonicalised :
    canonical_edge (some specEdgeMapping) "collaborated with" =
      some EdgeType.WORKED_WITH ∧
    canonical_edge (some specEdgeMapping) "worked with" =
      some EdgeType.WORKED_WITH ∧
    updateGraphBody analysisTwoRels emptyPyGraph =
      Except.error ("NameError: name locality_ids is not defined",
        graphTwoRels) ∧
    (graphTwoRels.edges.filter (fun e => e.source == "person_0" &&
      e.target == "person_1")).map (fun e => e.relationship) =
      ["collaborated with", "worked with"] ∧
    graphTwoRels.edges.all (fun e => e.relationship != "worked_with") = true ∧
    update_graph_database (some analysisTwoRels) none = (false, none) := by
  refine ⟨by decide, by decide, by decide, by decide, by decide, by decide⟩

/-! ## The graph writer acknowledges failed messages (claim C1) -/

/-- Every message in a batch is acknowledged, whether or not its handling
raised: `handle_message` swallows all exceptions and the loop in `main`
calls `xack` unconditionally after it. -/
theorem processEntries_acks_every_message {α G : Type}
    (merge : String → α → G → Except String G) (msgs : List (StreamMsg α))
    (g : G) :
    (processEntries merge msgs g).2 = msgs.map (fun m => m.id) := by
  suffices h : ∀ acc : G × List String,
      (msgs.foldl (fun st m => (handle_message merge m st.1, st.2 ++ [m.id]))
        acc).2 = acc.2 ++ msgs.map (fun m => m.id) by
    simpa [processEntries] using h (g, [])
  induction msgs with
  | nil => intro acc; simp
  | cons m rest ih => intro acc; simp [List.foldl, ih]

/-- C1 is violated by the code: a message whose handling raises (here:
missing `path` field, and a merge that raises) is still acknowledged,
because `handle_message` catches every exception internally and `main`
calls `xack` unconditionally afterwards. -/
theorem graph_writer_acks_failed_message :
    handle_message_body (fun (_ : String) (_ : Unit) (g : Nat) => Except.ok g)
        ({ id := "1-0", path := none, data := none } : StreamMsg Unit) 0 =
      Except.error "KeyError: path" ∧
    processEntries (fun (_ : String) (_ : Unit) (g : Nat) => Except.ok g)
        [{ id := "1-0", path := none, data := none }] 0 = (0, ["1-0"]) ∧
    handle_message_body
        (fun (_ : String) (_ : Unit) (_ : Nat) => Except.error "merge raised")
        ({ id := "2-0", path := some "doc.txt", data := some () } : StreamMsg Unit)
        0 = Except.error "merge raised" ∧
    processEntries
        (fun (_ : String) (_ : Unit) (_ : Nat) => Except.error "merge raised")
        [{ id := "2-0", path := some "doc.txt", data := some () }] 0 =
      (0, ["2-0"]) :=
  ⟨rfl, rfl, rfl, rfl⟩

end S2P
